import Mathlib

/-!
Verification development for the TVHeadend ATSC OTA scan & reconciliation
engine (`fptv/tvh.py`).

The engine is a Python HTTP client of a tuner backend.  We shallowly embed
its logic as executable Lean functions:

* JSON/Python values that flow through the untyped dicts are modelled by
  `PyVal` (`None`, `bool`, `int`, `str`).  Python truthiness, `or`, and `==`
  (where `True == 1`) are modelled explicitly.  Entity uuids, which the code
  only ever treats as strings (guarded by `isinstance(u, str) and u`), are
  modelled as `String`, with `""` standing for an absent or invalid uuid.
* Grid rows (`/api/mpegts/mux/grid`, `/api/channel/grid`, service lists)
  become structures whose fields are `Option PyVal` (`Option.none` = key
  absent from the row).  A channel's `services` field, which the backend
  always returns as a JSON array, is modelled as `List PyVal` so that junk
  entries inside the array are still representable.
* The backend is modelled as an explicit state (`BState`) threaded through
  the pipeline.  Each mutating call site appends an `Effect` to a trace and
  (unless it is a dry-run-suppressed site) updates the state; backend writes
  are assumed to succeed, matching the claims' "all writes succeeding"
  hypotheses.  The backend stores entities keyed by uuid, so per-row writes
  issued while iterating over a grid snapshot are applied as a batch
  transformation of the snapshot.
-/

/-- Python value as it appears in the decoded JSON dicts: `None`, a bool,
an int, or a string. -/
inductive PyVal where
  | none : PyVal
  | bool (b : Bool) : PyVal
  | int (n : Int) : PyVal
  | str (s : String) : PyVal
deriving DecidableEq, Repr

/-- Python truthiness of a value (`bool(v)`). -/
def truthy : PyVal → Bool
  | .none => false
  | .bool b => b
  | .int n => n != 0
  | .str s => s != ""

/-- `dict.get(k)`: an absent key reads as Python `None`. -/
def getF (o : Option PyVal) : PyVal := o.getD .none

/-- Python `a or b`: the first operand if truthy, otherwise the second. -/
def pyOr (a b : PyVal) : PyVal := if truthy a then a else b

/-- Python `==` on these values: `bool` is a subclass of `int`, so
`True == 1` and `False == 0`; there is no other cross-type equality. -/
def pyEq : PyVal → PyVal → Bool
  | .none, .none => true
  | .bool a, .bool b => a == b
  | .bool a, .int b => (if a then (1 : Int) else 0) == b
  | .int a, .bool b => a == (if b then (1 : Int) else 0)
  | .int a, .int b => a == b
  | .str a, .str b => a == b
  | _, _ => false

/-- `isinstance(v, int)` — true for Python bools as well (bool ⊂ int). -/
def pyIsInt : PyVal → Bool
  | .int _ => true
  | .bool _ => true
  | _ => false

/-- The integer value of a Python int-like (`True` reads as `1`). -/
def pyToInt : PyVal → Int
  | .int n => n
  | .bool b => if b then 1 else 0
  | _ => 0

/-! Python string primitives, implemented by structural recursion over the
character list (`String.trim`, `String.toUpper`, `String.splitOn` and
`String.toInt?` from the core library are defined by well-founded recursion
on byte positions, which the kernel cannot evaluate). -/

/-- `str.strip()` on the character list. -/
def trimChars (l : List Char) : List Char :=
  ((l.dropWhile Char.isWhitespace).reverse.dropWhile Char.isWhitespace).reverse

/-- Python `s.strip()`. -/
def pyTrim (s : String) : String := ⟨trimChars s.data⟩

/-- Python `s.upper()` (ASCII, which is all these grids carry). -/
def pyUpper (s : String) : String := ⟨s.data.map Char.toUpper⟩

/-- Python `s.lower()` (ASCII). -/
def pyLower (s : String) : String := ⟨s.data.map Char.toLower⟩

/-- Substring containment on character lists. -/
def subIn (sub : List Char) : List Char → Bool
  | [] => sub.isEmpty
  | c :: rest => sub.isPrefixOf (c :: rest) || subIn sub rest

/-- Python `sub in s`. -/
def pyContains (s sub : String) : Bool := subIn sub.data s.data

/-- Splitting worker; the fuel (any bound above the list length) makes the
recursion structural. -/
def splitGo (sep : List Char) : Nat → List Char → List Char → List (List Char)
  | 0, l, acc => [acc.reverse ++ l]
  | _ + 1, [], acc => [acc.reverse]
  | fuel + 1, c :: rest, acc =>
    if sep.isPrefixOf (c :: rest) then
      acc.reverse :: splitGo sep fuel ((c :: rest).drop sep.length) []
    else splitGo sep fuel rest (c :: acc)

/-- Python `s.split(sep)` for a nonempty separator. -/
def pySplit (s sep : String) : List String :=
  (splitGo sep.data (s.data.length + 1) s.data []).map (fun l => ⟨l⟩)

/-- Accumulate decimal digits; anything non-digit aborts, no digits at all
yields nothing. -/
def digitsVal : List Char → Option Nat → Option Nat
  | [], acc => acc
  | c :: rest, acc =>
    if c.isDigit then
      digitsVal rest (some ((acc.getD 0) * 10 + (c.toNat - 48)))
    else Option.none

/-- `int(s)` as used on the pieces of a channel-number string: Python strips
surrounding whitespace before parsing.  (Exotic forms such as a leading `+`
or underscores between digits are not modelled; no pipeline input depends
on them.) -/
def pyParseInt (s : String) : Option Int :=
  match trimChars s.data with
  | [] => Option.none
  | '-' :: ds => (digitsVal ds Option.none).map (fun n => -(n : Int))
  | ds => (digitsVal ds Option.none).map (fun n => (n : Int))

/-! ## Frequency table (`TVHeadendScanner.rf_to_freq_hz`) -/

/-- `rf_to_freq_hz(rf)`: ATSC RF channel number to frequency in Hz.
`Option.none` models the `ValueError("Invalid RF channel")` raise. -/
def rf_to_freq_hz (rf : Int) : Option Int :=
  if rf ≥ 14 then some (473000000 + (rf - 14) * 6000000)
  else if rf ≥ 7 then some (177000000 + (rf - 7) * 6000000)
  else if rf = 2 then some 57000000
  else if rf = 3 then some 63000000
  else if rf = 4 then some 69000000
  else if rf = 5 then some 79000000
  else if rf = 6 then some 85000000
  else Option.none

/-! ## Mux health (`_mux_is_ok`, `get_mux_health_for_network`, `get_mux_index`) -/

/-- `_mux_is_ok(mux_info)` over the two dict keys it reads.
`Option.none` for an argument means the key is absent from the dict
(`mux_info.get("enabled", True)` then defaults to `True`). -/
def mux_is_ok (enabled : Option PyVal) (scan_result : Option PyVal) : Bool :=
  if !truthy (enabled.getD (.bool true)) then false
  else
    match getF scan_result with
    | .int n => n == 1
    | .bool b => (if b then (1 : Int) else 0) == 1
    | .str s => pyUpper s == "OK"
    | _ => false

/-- A row of `/api/mpegts/mux/grid`.  `Option.none` fields are keys the
backend build did not include in the row. -/
structure MuxEntry where
  uuid : String
  network_uuid : Option PyVal := Option.none
  network : Option PyVal := Option.none
  enabled : Option PyVal := Option.none
  scan_state : Option PyVal := Option.none
  scan_result : Option PyVal := Option.none
  frequency : Option PyVal := Option.none
deriving DecidableEq, Repr

/-- The network filter used by the health map and the mux index:
`(e.get("network_uuid") or e.get("network")) in (net_uuid, net_name)`. -/
def net_matches (net_uuid : String) (net_name : String) (e : MuxEntry) : Bool :=
  let nu := pyOr (getF e.network_uuid) (getF e.network)
  pyEq nu (.str net_uuid) || pyEq nu (.str net_name)

/-- The value stored per mux by `get_mux_health_for_network`:
`{"enabled": bool(e.get("enabled", True)), "scan_result": ..., "scan_state": ...}`. -/
structure HealthRec where
  enabled : Bool
  scan_result : PyVal
  scan_state : PyVal
deriving DecidableEq, Repr

/-- The health record built from one mux grid row. -/
def health_entry (e : MuxEntry) : HealthRec :=
  { enabled := truthy (e.enabled.getD (.bool true))
    scan_result := getF e.scan_result
    scan_state := getF e.scan_state }

/-- Lookup in a Python dict built by repeated assignment: the last
assignment to a key wins. -/
def dlookup {α : Type} (l : List (String × α)) (k : String) : Option α :=
  (l.reverse.find? (fun p => p.1 == k)).map (·.2)

/-- `get_mux_health_for_network(net_uuid)`: mux uuid → health record, for
rows whose network reference matches the uuid or the configured name. -/
def get_mux_health_for_network (net_uuid net_name : String)
    (muxes : List MuxEntry) : List (String × HealthRec) :=
  (muxes.filter (fun e => net_matches net_uuid net_name e && e.uuid != "")).map
    (fun e => (e.uuid, health_entry e))

/-- `_mux_is_ok` applied to a health record (the record dict always has an
`"enabled"` key holding a bool and a `"scan_result"` key holding the raw
grid value, `None` included). -/
def mux_is_ok_rec (r : HealthRec) : Bool :=
  mux_is_ok (some (.bool r.enabled)) (some r.scan_result)

/-- `get_good_muxes(net_uuid)`: the set of healthy mux uuids, as a list. -/
def get_good_muxes (net_uuid net_name : String) (muxes : List MuxEntry) :
    List String :=
  ((get_mux_health_for_network net_uuid net_name muxes).filter
    (fun p => mux_is_ok_rec p.2)).map (·.1)

/-- The value stored per mux by `get_mux_index`. -/
structure MuxIdxRec where
  enabled : Bool
  scan_result : PyVal
  scan_state : PyVal
  network_uuid : Option PyVal
  network : Option PyVal
  frequency : Option PyVal
deriving DecidableEq, Repr

/-- The index record built from one mux grid row. -/
def index_entry (e : MuxEntry) : MuxIdxRec :=
  { enabled := truthy (e.enabled.getD (.bool true))
    scan_result := getF e.scan_result
    scan_state := getF e.scan_state
    network_uuid := e.network_uuid
    network := e.network
    frequency := e.frequency }

/-- `get_mux_index(net_uuid)`: mux uuid → info for muxes of this network. -/
def get_mux_index (net_uuid net_name : String) (muxes : List MuxEntry) :
    List (String × MuxIdxRec) :=
  (muxes.filter (fun e => net_matches net_uuid net_name e && e.uuid != "")).map
    (fun e => (e.uuid, index_entry e))

/-! ## Services and channels -/

/-- A service, as visible through `/api/service/list`, the service grid and
`idnode/load`.  The `p`-prefixed fields are the idnode params view
(`_idnode_params_to_map`); the unprefixed ones the grid/list row fields. -/
structure SvcEntry where
  uuid : String
  svcname : Option PyVal := Option.none
  name : Option PyVal := Option.none
  multiplex_uuid : Option PyVal := Option.none
  mux_uuid : Option PyVal := Option.none
  pSvcname : Option PyVal := Option.none
  pName : Option PyVal := Option.none
  pMultiplex : Option PyVal := Option.none
  pMux : Option PyVal := Option.none
  pNetworkUuid : Option PyVal := Option.none
  pNetwork : Option PyVal := Option.none
deriving DecidableEq, Repr

/-- A row of `/api/channel/grid`.  `services` is the JSON array of service
uuid entries (junk entries representable as non-`str` `PyVal`s). -/
structure ChanEntry where
  uuid : String
  name : Option PyVal := Option.none
  number : Option PyVal := Option.none
  enabled : Option PyVal := Option.none
  services : List PyVal := []
deriving DecidableEq, Repr

/-- `_idnode_load_entry(service_uuid)` against the backend service table. -/
def idnode_load_service (svcs : List SvcEntry) (su : String) : Option SvcEntry :=
  svcs.find? (fun s => s.uuid == su)

/-! ## `service_is_acceptable` and the Pruner -/

/-- The tail of `service_is_acceptable` once the service's mux uuid has been
resolved: validate the uuid, look it up in the mux index, and check
`enabled` and `scan_result`.  Returns `(ok, reason)`. -/
def acceptable_mux_check (mux_index : List (String × MuxIdxRec))
    (mux_uuid : PyVal) : Bool × String :=
  match mux_uuid with
  | .str s =>
    if s == "" then (false, "removed_service_missing_mux")
    else
      match dlookup mux_index s with
      | Option.none => (false, "removed_unknown_mux")
      | some mux =>
        if !mux.enabled then (false, "removed_mux_disabled")
        else
          match mux.scan_result with
          | .int n => if n != 1 then (false, "removed_mux_bad_scan") else (true, "ok")
          | .bool b =>
            if (if b then (1 : Int) else 0) != 1 then (false, "removed_mux_bad_scan")
            else (true, "ok")
          | .str r => if pyUpper r != "OK" then (false, "removed_mux_bad_scan") else (true, "ok")
          | .none => (false, "removed_mux_bad_scan")
  | _ => (false, "removed_service_missing_mux")

/-- `service_is_acceptable(service_uuid, net_uuid=..., mux_index=...)`. -/
def service_is_acceptable (svcs : List SvcEntry) (net_uuid net_name : String)
    (mux_index : List (String × MuxIdxRec)) (su : String) : Bool × String :=
  match idnode_load_service svcs su with
  | some ent =>
    let mux_uuid := pyOr (getF ent.pMultiplex) (getF ent.pMux)
    let svc_net := pyOr (getF ent.pNetworkUuid) (getF ent.pNetwork)
    if svc_net != PyVal.none &&
        !(pyEq svc_net (.str net_uuid) || pyEq svc_net (.str net_name)) then
      (false, "removed_wrong_network")
    else acceptable_mux_check mux_index mux_uuid
  | Option.none =>
    -- `if ent:` is false, so `mux_uuid` stays `None` and the
    -- `isinstance(mux_uuid, str)` guard fails.
    acceptable_mux_check mux_index PyVal.none

/-- The keep-condition the Pruner applies to one entry of a channel's
`services` array: a nonempty string that `service_is_acceptable` accepts. -/
def link_ok (svcs : List SvcEntry) (net_uuid net_name : String)
    (mux_index : List (String × MuxIdxRec)) (su : PyVal) : Bool :=
  match su with
  | .str s => s != "" && (service_is_acceptable svcs net_uuid net_name mux_index s).1
  | _ => false

/-! ## Effects: one constructor per mutating call site of the pipeline -/

/-- A request the pipeline sends to a mutating backend endpoint, tagged by
call site. -/
inductive Effect where
  | epgSave
  | frontendSave (uuid : String)
  | muxDelete (uuid : String)
  | muxCreate (net_uuid : String) (freq : Int)
  | muxScan (uuid : String)
  | muxDisable (uuid : String)
  | orphanChanDelete (uuid : String)
  | chanCreate (name : String) (svc : String)
  | unnamedChanDelete (uuid : String)
  | dedupSave (uuid : String)
  | dedupChanDelete (uuid : String)
  | streamProbe (uuid : String)
  | pruneSave (uuid : String)
  | pruneChanDelete (uuid : String)
deriving DecidableEq, Repr

/-! ## The Pruner (`prune_invalid_services_per_channel`) -/

/-- The Pruner's handling of a single channel from the grid snapshot: the
channel it leaves behind (`Option.none` = deleted) and the writes it issues.
Observability counters of the original are omitted; they feed no decision. -/
def prune_one (svcs : List SvcEntry) (net_uuid net_name : String)
    (mux_index : List (String × MuxIdxRec)) (dry_run : Bool)
    (ch : ChanEntry) : Option ChanEntry × List Effect :=
  if ch.uuid == "" then (some ch, [])              -- channel_missing_uuid
  else if ch.services.isEmpty then (some ch, [])   -- no_services
  -- `kept` below is the `kept` list of the original loop
  else if (ch.services.filter (link_ok svcs net_uuid net_name mux_index)).length
      == ch.services.length then (some ch, [])     -- all_services_ok
  else if dry_run then (some ch, [])
  else if (ch.services.filter (link_ok svcs net_uuid net_name mux_index)).isEmpty then
    (Option.none, [.pruneChanDelete ch.uuid])
  else
    (some { ch with
        services := ch.services.filter (link_ok svcs net_uuid net_name mux_index) },
     [.pruneSave ch.uuid])

/-- `prune_invalid_services_per_channel(net_uuid)`: reads the channel grid
and the mux index once, then prunes channel by channel.  Returns the write
trace and the resulting channel grid. -/
def prune_invalid_services_per_channel (svcs : List SvcEntry)
    (net_uuid net_name : String) (muxes : List MuxEntry) (dry_run : Bool)
    (channels : List ChanEntry) : List Effect × List ChanEntry :=
  let mux_index := get_mux_index net_uuid net_name muxes
  ((channels.map
      (fun ch => (prune_one svcs net_uuid net_name mux_index dry_run ch).2)).flatten,
   channels.filterMap
      (fun ch => (prune_one svcs net_uuid net_name mux_index dry_run ch).1))

/-! ## The Deduplicator (`deduplicate_channels_by_name`) -/

/-- `_parse_major_minor(num)`: parse a channel number like `"9.4"`.
Ints and floats are stringified first — floats do not occur in these grids
and are not modelled; a Python bool stringifies to `"True"`/`"False"` and
fails the int parse. -/
def parse_major_minor (num : PyVal) : Option (Int × Int) :=
  match num with
  | .none => Option.none
  | .bool _ => Option.none      -- str(True)="True": unparseable
  | .int n => some (n, 0)       -- str(n) has no ".", int(str(n)) = n
  | .str v =>
    let s := pyTrim v
    if s == "" then Option.none
    else
      match pySplit s "." with
      | [] => Option.none
      | [x] => (pyParseInt x).map (fun a => (a, 0))
      | x :: rest =>
        match pyParseInt x, pyParseInt (String.intercalate "." rest) with
        | some a, some b => some (a, b)
        | _, _ => Option.none

/-- `get_service_to_mux_map()`: service uuid → mux uuid from the service
grid (`multiplex_uuid` or `mux_uuid`, kept only when a nonempty string). -/
def get_service_to_mux_map (svcs : List SvcEntry) : List (String × String) :=
  svcs.filterMap (fun s =>
    if s.uuid == "" then Option.none
    else
      match pyOr (getF s.multiplex_uuid) (getF s.mux_uuid) with
      | .str m => if m == "" then Option.none else some (s.uuid, m)
      | _ => Option.none)

/-- The dedup grouping key: the trimmed name, excluding non-strings, blanks
and the hardcoded `"{name-not-set}"` marker. -/
def chanKey (ch : ChanEntry) : Option String :=
  match ch.name with
  | some (.str s) =>
    let t := pyTrim s
    if t == "" || t == "{name-not-set}" then Option.none else some t
  | _ => Option.none

/-- `good_service_count(ch)`: services of the channel whose mux is in the
good set. -/
def good_service_count (svc_to_mux : List (String × String))
    (good_muxes : List String) (ch : ChanEntry) : Nat :=
  (ch.services.filter (fun su =>
    match su with
    | .str s =>
      s != "" &&
        (match dlookup svc_to_mux s with
         | some m => m != "" && good_muxes.contains m
         | Option.none => false)
    | _ => false)).length

/-- One member of the dedup `enriched` list:
`(ch, gsc, enabled, major, minor, svc_count)`. -/
structure Enr where
  ch : ChanEntry
  gsc : Nat
  enabled : Bool
  major : Int
  minor : Int
  svc_count : Nat
deriving DecidableEq, Repr

/-- The candidate features computed per group member. -/
def enrich (svc_to_mux : List (String × String)) (good_muxes : List String)
    (ch : ChanEntry) : Enr :=
  let mm := (parse_major_minor (getF ch.number)).getD (9999, 9999)
  { ch := ch
    gsc := good_service_count svc_to_mux good_muxes ch
    enabled := truthy (getF ch.enabled)
    major := mm.1
    minor := mm.2
    svc_count := ch.services.length }

/-- The sort key `(-gsc, -int(enabled), major, minor, -svc_count)`. -/
def enrKey (e : Enr) : Int × Int × Int × Int × Int :=
  (-(e.gsc : Int), -(if e.enabled then (1 : Int) else 0), e.major, e.minor,
   -(e.svc_count : Int))

/-- Lexicographic ≤ on the sort key. -/
def keyLE (a b : Int × Int × Int × Int × Int) : Bool :=
  a.1 < b.1 || (a.1 == b.1 &&
    (a.2.1 < b.2.1 || (a.2.1 == b.2.1 &&
      (a.2.2.1 < b.2.2.1 || (a.2.2.1 == b.2.2.1 &&
        (a.2.2.2.1 < b.2.2.2.1 || (a.2.2.2.1 == b.2.2.2.1 &&
          a.2.2.2.2 ≤ b.2.2.2.2)))))))

/-- Stable insertion of an earlier element in front of equal keys. -/
def insortEnr (x : Enr) : List Enr → List Enr
  | [] => [x]
  | y :: ys => if keyLE (enrKey x) (enrKey y) then x :: y :: ys else y :: insortEnr x ys

/-- Python's stable ascending `list.sort(key=...)`. -/
def sortEnr (l : List Enr) : List Enr := l.foldr insortEnr []

/-- First-occurrence deduplication of a list of keys (Python dict insertion
order). -/
def firstDedupGo : List String → List String → List String
  | [], _ => []
  | x :: xs, seen =>
    if seen.contains x then firstDedupGo xs seen
    else x :: firstDedupGo xs (x :: seen)

/-- Keys in first-seen order. -/
def firstDedup (l : List String) : List String := firstDedupGo l []

/-- The service merge of the dedup phase: walk the group in sorted order,
keep every nonempty string service uuid the first time it is seen. -/
def merge_go : List PyVal → List String → List String
  | [], _ => []
  | su :: rest, seen =>
    match su with
    | .str s =>
      if s != "" && !seen.contains s then s :: merge_go rest (s :: seen)
      else merge_go rest seen
    | _ => merge_go rest seen

/-- `merged_services` for a group given in `enriched` (sorted) order. -/
def merge_services (chans : List ChanEntry) : List String :=
  merge_go (chans.map (·.services)).flatten []

/-- Canonical selection: the best-sorted member, except that when the top
two tie on `good_service_count` (and this is not a dry run) both are
stream-probed and the runner-up wins if it alone streams. -/
def pick_canonical (dry_run : Bool) (probe : ChanEntry → Bool)
    (enriched : List Enr) : ChanEntry :=
  match enriched with
  | [] => { uuid := "" }
  | a :: rest =>
    match rest with
    | [] => a.ch
    | b :: _ =>
      if a.gsc == b.gsc && !dry_run then
        if probe b.ch && !probe a.ch then b.ch else a.ch
      else a.ch

/-- The writes one oversized group causes: optional probes, then (when the
canonical uuid is valid and this is not a dry run) the merge save and the
deletion of every valid-uuid non-canonical member. -/
def dedup_process_group (s2m : List (String × String)) (good : List String)
    (dry_run : Bool) (probe : ChanEntry → Bool) (chans : List ChanEntry) :
    List Effect :=
  if chans.length < 2 then []
  else
    let enriched := sortEnr (chans.map (enrich s2m good))
    let probeEffs :=
      match enriched with
      | a :: b :: _ =>
        if a.gsc == b.gsc && !dry_run then
          [.streamProbe a.ch.uuid, .streamProbe b.ch.uuid]
        else []
      | _ => []
    let canon := pick_canonical dry_run probe enriched
    if canon.uuid == "" then probeEffs
    else if dry_run then probeEffs
    else
      probeEffs ++ [.dedupSave canon.uuid] ++
        (enriched.filterMap (fun e =>
          if e.ch.uuid == canon.uuid then Option.none
          else if e.ch.uuid == "" then Option.none
          else some (Effect.dedupChanDelete e.ch.uuid)))

/-- The canonical member of one group (sorted, then possibly swapped by
the stream probe). -/
def dedup_canonical (s2m : List (String × String)) (good : List String)
    (dry_run : Bool) (probe : ChanEntry → Bool) (grp : List ChanEntry) :
    ChanEntry :=
  pick_canonical dry_run probe (sortEnr (grp.map (enrich s2m good)))

/-- The merged service list of one group, walked in sorted order. -/
def dedup_merged (s2m : List (String × String)) (good : List String)
    (grp : List ChanEntry) : List String :=
  merge_services ((sortEnr (grp.map (enrich s2m good))).map (·.ch))

/-- What the dedup phase leaves of one channel of the snapshot:
unchanged when it is ungrouped or its group has a single member or an
invalid canonical uuid or this is a dry run; the merged canonical when it
is the group's canonical; deleted otherwise (unless its own uuid is
invalid, in which case the delete is never issued). -/
def dedup_result_one (s2m : List (String × String)) (good : List String)
    (dry_run : Bool) (probe : ChanEntry → Bool) (snapshot : List ChanEntry)
    (ch : ChanEntry) : Option ChanEntry :=
  match chanKey ch with
  | Option.none => some ch
  | some k =>
    if (snapshot.filter (fun c => chanKey c == some k)).length < 2 then some ch
    else if (dedup_canonical s2m good dry_run probe
        (snapshot.filter (fun c => chanKey c == some k))).uuid == "" then some ch
    else if dry_run then some ch
    else if ch.uuid == (dedup_canonical s2m good dry_run probe
        (snapshot.filter (fun c => chanKey c == some k))).uuid then
      some { ch with services :=
        (dedup_merged s2m good
          (snapshot.filter (fun c => chanKey c == some k))).map .str }
    else if ch.uuid == "" then some ch
    else Option.none

/-- The dedup phase on the channel-grid snapshot, given the precomputed
good-mux set and service→mux map. -/
def dedup_core (s2m : List (String × String)) (good : List String)
    (dry_run : Bool) (probe : ChanEntry → Bool) (channels : List ChanEntry) :
    List Effect × List ChanEntry :=
  let keys := firstDedup (channels.filterMap chanKey)
  ((keys.map (fun k =>
      dedup_process_group s2m good dry_run probe
        (channels.filter (fun c => chanKey c == some k)))).flatten,
   channels.filterMap (dedup_result_one s2m good dry_run probe channels))

/-- `deduplicate_channels_by_name(net_uuid)`: reads the channel grid, the
mux health map and the service→mux map, then merges groups of same-named
channels. -/
def deduplicate_channels_by_name (svcs : List SvcEntry)
    (net_uuid net_name : String) (muxes : List MuxEntry) (dry_run : Bool)
    (probe : ChanEntry → Bool) (channels : List ChanEntry) :
    List Effect × List ChanEntry :=
  dedup_core (get_service_to_mux_map svcs) (get_good_muxes net_uuid net_name muxes)
    dry_run probe channels

/-! ## Mux state counting and the Convergence Poller -/

/-- `MuxStates`: per-poll classification counters. -/
structure MuxStates where
  active : Nat := 0
  pending : Nat := 0
  ok : Nat := 0
  fail : Nat := 0
  idle : Nat := 0
  total : Nat := 0
deriving DecidableEq, Repr

/-- `MuxStates.is_settled`: no muxes are actively scanning. -/
def MuxStates.is_settled (s : MuxStates) : Bool := s.active + s.pending == 0

/-- Classification of one mux grid row into the counters (`count_mux_states`
loop body).  Int `scan_state`: 0=IDLE, 1=PEND, anything else in progress;
int `scan_result`: 1=OK, 2=FAIL; string fallbacks are compared exactly. -/
def count_one_mux (st : MuxStates) (e : MuxEntry) : MuxStates :=
  let st := { st with total := st.total + 1 }
  let ss := getF e.scan_state
  let st :=
    if pyIsInt ss then
      if pyToInt ss == 0 then { st with idle := st.idle + 1 }
      else if pyToInt ss == 1 then { st with pending := st.pending + 1 }
      else { st with active := st.active + 1 }
    else if ss == .str "ACTIVE" then { st with active := st.active + 1 }
    else if ss == .str "PENDING" then { st with pending := st.pending + 1 }
    else if ss == .str "IDLE" then { st with idle := st.idle + 1 }
    else st
  let sr := getF e.scan_result
  if pyIsInt sr then
    if pyToInt sr == 1 then { st with ok := st.ok + 1 }
    else if pyToInt sr == 2 then { st with fail := st.fail + 1 }
    else st
  else if sr == .str "OK" then { st with ok := st.ok + 1 }
  else if sr == .str "FAIL" then { st with fail := st.fail + 1 }
  else st

/-- `count_mux_states(net_uuid)` over the mux grid.  Note: unlike the health
map, this filter compares the network reference against the uuid only. -/
def count_mux_states (net_uuid : String) (muxes : List MuxEntry) : MuxStates :=
  (muxes.filter (fun e =>
      pyEq (pyOr (getF e.network_uuid) (getF e.network)) (.str net_uuid))).foldl
    count_one_mux {}

/-- The polling loop of `scan` step 5.  `t i` is the elapsed time observed
at iteration `i` (the backend state does not change during the poll, so the
per-iteration `count_mux_states` snapshot is constant).  `fuel` bounds the
number of iterations modelled; `Option.none` means the loop is still
polling when the fuel runs out. -/
def poll_loop (t : Nat → Nat) (timeout_secs : Nat) (states : MuxStates) :
    Nat → Nat → Option Bool
  | _, 0 => Option.none
  | i, fuel + 1 =>
    if timeout_secs < t i then some false
    else if states.is_settled then some true
    else poll_loop t timeout_secs states (i + 1) fuel

/-! ## Remaining pipeline phases -/

/-- `ScanConfig` (connection fields, which the embedding does not need, are
omitted).  `map_services_to_channels` is carried but — exactly as in the
original `scan` — never consulted. -/
structure ScanConfig where
  net_name : String := "ATSC OTA"
  rf_start : Int := 2
  rf_end : Int := 36
  wipe_existing_muxes : Bool := true
  map_services_to_channels : Bool := true
  delete_unnamed_channels : Bool := true
  unnamed_channel_names : String := "{name-not-set}"
  modulation : String := "VSB/8"
  timeout_secs : Nat := 600
  dry_run : Bool := false
deriving Repr

/-- A row of the network grid. -/
structure NetEntry where
  networkname : Option PyVal := Option.none
  name : Option PyVal := Option.none
  uuid : String := ""
deriving DecidableEq, Repr

/-- A hardware node as yielded by the `_iter_hw_tree` walk, together with
its idnode params view.  The depth-first traversal itself is abstracted to
the sequence of nodes it yields; `networks` is the frontend's linked
network uuid list. -/
structure HwNode where
  uuid : String
  cls : String
  text : String
  enabled : Bool := false
  networks : List String := []
deriving DecidableEq, Repr

/-- The modelled backend state.  `networks` and `hw` are static tables;
`class_has_scan_state` says whether the network's mux class declares a
`scan_state` property (consulted by `create_mux_atsc`).  `next_mux` /
`next_chan` drive deterministic uuid generation for created entities. -/
structure BState where
  networks : List NetEntry := []
  hw : List HwNode := []
  class_has_scan_state : Bool := false
  muxes : List MuxEntry := []
  services : List SvcEntry := []
  channels : List ChanEntry := []
  next_mux : Nat := 0
  next_chan : Nat := 0
deriving Repr

/-- `get_network_uuid()`: the uuid of the first grid row whose
`networkname or name` equals the configured network name. -/
def get_network_uuid (net_name : String) (nets : List NetEntry) : Option String :=
  (nets.find? (fun e =>
      pyEq (pyOr (getF e.networkname) (getF e.name)) (.str net_name))).map (·.uuid)

/-- `_is_atsc_t_frontend_node(node)` heuristic. -/
def is_atsc_t_frontend_node (n : HwNode) : Bool :=
  let c := pyLower n.cls
  let t := pyLower n.text
  pyContains c "linuxdvb_frontend_atsc_t" || pyContains t "atsc-t" ||
    pyContains t "atsc t" || pyContains t "atsc_t"

/-- `ensure_atsc_t_frontends_enabled_and_linked(net_uuid)`: one
`save_idnode` per matching frontend that is disabled or unlinked; a
dry run suppresses the write.  The hardware table itself is static. -/
def ensure_atsc_t_frontends (net_uuid : String) (dry_run : Bool)
    (hw : List HwNode) : List Effect :=
  hw.filterMap (fun n =>
    if n.uuid == "" then Option.none
    else if !is_atsc_t_frontend_node n then Option.none
    else
      if !(!n.enabled || !n.networks.contains net_uuid) then Option.none
      else if dry_run then Option.none
      else some (Effect.frontendSave n.uuid))

/-- `list_muxes_for_network(net_uuid)`: uuids of grid rows whose network
reference equals the uuid (no name fallback in this function). -/
def list_muxes_for_network (net_uuid : String) (muxes : List MuxEntry) :
    List String :=
  (muxes.filter (fun e =>
      pyEq (pyOr (getF e.network_uuid) (getF e.network)) (.str net_uuid))).map
    (·.uuid)

/-- The wipe step of `scan`: delete every listed mux.  `delete_mux_uuid`
carries no dry-run guard — it always posts.  The backend drops the rows
whose uuid was named (an invalid `""` uuid deletes nothing). -/
def wipe_muxes (net_uuid : String) (st : BState) : List Effect × BState :=
  let todo := list_muxes_for_network net_uuid st.muxes
  (todo.map Effect.muxDelete,
   { st with muxes := st.muxes.filter (fun m =>
       m.uuid == "" || !todo.contains m.uuid) })

/-- The mux row the backend materialises for `create_mux_atsc`'s `conf`
(`enabled=1`, the frequency, and `scan_state=1` only when the mux class
declares that property; a fresh mux reports `scan_result` 0). -/
def created_mux (net_uuid net_name : String) (has_scan_state : Bool)
    (n : Nat) (freq : Int) : MuxEntry :=
  { uuid := "mux-" ++ toString n
    network_uuid := some (.str net_uuid)
    network := some (.str net_name)
    enabled := some (.int 1)
    scan_state := some (.int (if has_scan_state then 1 else 0))
    scan_result := some (.int 0)
    frequency := some (.int freq) }

/-- Python `range(rf_start, rf_end + 1)` over integers. -/
def rf_range (a b : Int) : List Int :=
  (List.range (b + 1 - a).toNat).map (fun i => a + (i : Int))

/-- One iteration of the mux-creation loop: convert the RF to a frequency
(an invalid RF is skipped, mirroring the caught `ValueError`) and post
`mux_create` — with no dry-run guard.  The created row is appended. -/
def create_mux_step (net_uuid net_name : String)
    (acc : List Effect × BState) (rf : Int) : List Effect × BState :=
  match rf_to_freq_hz rf with
  | Option.none => acc
  | some freq =>
    (acc.1 ++ [.muxCreate net_uuid freq],
     { acc.2 with
        muxes := acc.2.muxes ++
          [created_mux net_uuid net_name acc.2.class_has_scan_state
            acc.2.next_mux freq]
        next_mux := acc.2.next_mux + 1 })

/-- The mux-creation step of `scan` across the whole RF range. -/
def create_muxes (net_uuid net_name : String) (cfg : ScanConfig)
    (st : BState) : List Effect × BState :=
  (rf_range cfg.rf_start cfg.rf_end).foldl (create_mux_step net_uuid net_name)
    ([], st)

/-- The force-scan step: one scan request per listed mux (no dry-run
guard).  The request only queues hardware work inside the backend; the
modelled grid rows are unchanged. -/
def force_scan_all (net_uuid : String) (st : BState) : List Effect :=
  (list_muxes_for_network net_uuid st.muxes).map Effect.muxScan

/-- `delete_orphan_channels()`: delete every valid-uuid channel whose
services list is empty; a dry run only logs. -/
def delete_orphan_channels (dry_run : Bool) (channels : List ChanEntry) :
    List Effect × List ChanEntry :=
  ((channels.filterMap (fun ch =>
      if ch.services.isEmpty && ch.uuid != "" && !dry_run then
        some (Effect.orphanChanDelete ch.uuid)
      else Option.none)),
   channels.filter (fun ch =>
      !(ch.services.isEmpty && ch.uuid != "" && !dry_run)))

/-- Whether `disable_failed_muxes` rewrites this row: network match (uuid
or name), valid uuid, enabled (default true) and a FAIL scan result. -/
def should_disable (net_uuid net_name : String) (e : MuxEntry) : Bool :=
  (pyEq (pyOr (getF e.network_uuid) (getF e.network)) (.str net_uuid) ||
     pyEq (pyOr (getF e.network_uuid) (getF e.network)) (.str net_name)) &&
  e.uuid != "" &&
  truthy (e.enabled.getD (.bool true)) &&
  (pyEq (getF e.scan_result) (.int 2) ||
     (match getF e.scan_result with
      | .str s => pyUpper s == "FAIL"
      | _ => false))

/-- `disable_failed_muxes(net_uuid)`: save `enabled=False` on every
matching row (suppressed by a dry run). -/
def disable_failed_muxes (net_uuid net_name : String) (dry_run : Bool)
    (st : BState) : List Effect × BState :=
  if dry_run then ([], st)
  else
    ((st.muxes.filterMap (fun e =>
        if should_disable net_uuid net_name e then some (Effect.muxDisable e.uuid)
        else Option.none)),
     { st with muxes := st.muxes.map (fun e =>
        if should_disable net_uuid net_name e then
          { e with enabled := some (.bool false) }
        else e) })

/-- `get_service_best_name(service_entry)`: `svcname`, then the tail of a
`"Network/Freq/Name"` style `name`, then the idnode `svcname` fallback. -/
def get_service_best_name (svcs : List SvcEntry) (s : SvcEntry) : Option String :=
  match getF s.svcname with
  | .str v =>
    if pyTrim v != "" then some (pyTrim v)
    else name_field_or_idnode svcs s
  | _ => name_field_or_idnode svcs s
where
  /-- The `name`-field and idnode fallbacks. -/
  name_field_or_idnode (svcs : List SvcEntry) (s : SvcEntry) : Option String :=
    match getF s.name with
    | .str v =>
      if pyTrim v != "" then
        let t := pyTrim v
        match pySplit t "/" with
        | [] => some t
        | [_] => some t
        | parts =>
          let tail := pyTrim (parts.getLastD "")
          if tail != "" then some tail else some t
      else idnode_name svcs s
    | _ => idnode_name svcs s
  /-- `_service_name_from_idnode` via the service's uuid. -/
  idnode_name (svcs : List SvcEntry) (s : SvcEntry) : Option String :=
    if s.uuid == "" then Option.none
    else
      match idnode_load_service svcs s.uuid with
      | Option.none => Option.none
      | some ent =>
        match getF ent.pSvcname with
        | .str v => if pyTrim v != "" then some (pyTrim v) else Option.none
        | _ => Option.none

/-- The set of service uuids already referenced by some channel. -/
def mapped_services (channels : List ChanEntry) : List String :=
  (channels.map (fun ch => ch.services.filterMap (fun su =>
      match su with
      | .str s => if s != "" then some s else Option.none
      | _ => Option.none))).flatten

/-- The channel row created for an unmapped named service. -/
def created_channel (n : Nat) (name : String) (su : String) : ChanEntry :=
  { uuid := "chan-" ++ toString n
    name := some (.str name)
    enabled := some (.bool true)
    services := [.str su] }

/-- One iteration of the service→channel mapping loop over the snapshot of
services (`svcsAll`) and the precomputed mapped-service set. -/
def map_service_step (svcsAll : List SvcEntry) (mapped : List String)
    (dry_run : Bool) (acc : List Effect × BState) (svc : SvcEntry) :
    List Effect × BState :=
  if svc.uuid == "" then acc
  else if mapped.contains svc.uuid then acc
  else
    match get_service_best_name svcsAll svc with
    | Option.none => acc
    | some name =>
      if dry_run then acc
      else
        (acc.1 ++ [.chanCreate name svc.uuid],
         { acc.2 with
            channels := acc.2.channels ++
              [created_channel acc.2.next_chan name svc.uuid]
            next_chan := acc.2.next_chan + 1 })

/-- `ensure_channels_mapped_from_services()`: create one channel per
unmapped service with a resolvable name; a dry run only logs. -/
def ensure_channels_mapped_from_services (dry_run : Bool) (st : BState) :
    List Effect × BState :=
  st.services.foldl
    (map_service_step st.services (mapped_services st.channels) dry_run)
    ([], st)

/-- The unnamed-marker set: the comma-split, trimmed, nonblank pieces of
the configured list, plus the blank name. -/
def unnamed_markers (cfg : ScanConfig) : List String :=
  ((pySplit cfg.unnamed_channel_names ",").map pyTrim).filter (· != "") ++ [""]

/-- Whether `cleanup_unnamed_channels` deletes this channel: its name
(read as `""` when absent, falsy or not a string) trims to a marker, and
its uuid is valid. -/
def is_unnamed_channel (cfg : ScanConfig) (ch : ChanEntry) : Bool :=
  let name :=
    match getF ch.name with
    | .str s => s
    | _ => ""
  (unnamed_markers cfg).contains (pyTrim name) && ch.uuid != ""

/-- `cleanup_unnamed_channels()`: delete placeholder-named channels.
This call site has NO dry-run guard in the original — it always posts. -/
def cleanup_unnamed_channels (cfg : ScanConfig) (channels : List ChanEntry) :
    List Effect × List ChanEntry :=
  (channels.filterMap (fun ch =>
      if is_unnamed_channel cfg ch then some (Effect.unnamedChanDelete ch.uuid)
      else Option.none),
   channels.filter (fun ch => !is_unnamed_channel cfg ch))

/-! ## The Scan Orchestrator (`scan`) -/

/-- Steps 1b–4 of `scan` after network resolution: frontend configuration,
the optional wipe, deterministic mux creation across the RF range, and the
force-scan requests. -/
def scan_pre (cfg : ScanConfig) (net_uuid : String) (st : BState) :
    List Effect × BState :=
  let eF := ensure_atsc_t_frontends net_uuid cfg.dry_run st.hw
  let wiped := if cfg.wipe_existing_muxes then wipe_muxes net_uuid st else ([], st)
  let creatd := create_muxes net_uuid cfg.net_name cfg wiped.2
  let eS := force_scan_all net_uuid creatd.2
  (eF ++ wiped.1 ++ creatd.1 ++ eS, creatd.2)

/-- Steps 6–13 of `scan`, reached only after the poll settles: orphan
deletion, disabling failed muxes, service→channel mapping, placeholder
cleanup, deduplication and the final prune.  (The health-check diagnostic
between dedup and prune is read-only.) -/
def scan_post (cfg : ScanConfig) (net_uuid : String)
    (probe : ChanEntry → Bool) (st : BState) : List Effect × BState :=
  let orp := delete_orphan_channels cfg.dry_run st.channels
  let st6 : BState := { st with channels := orp.2 }
  let dis := disable_failed_muxes net_uuid cfg.net_name cfg.dry_run st6
  let map := ensure_channels_mapped_from_services cfg.dry_run dis.2
  let cln :=
    if cfg.delete_unnamed_channels then
      cleanup_unnamed_channels cfg map.2.channels
    else ([], map.2.channels)
  let st9 : BState := { map.2 with channels := cln.2 }
  let ded := deduplicate_channels_by_name st9.services net_uuid cfg.net_name
    st9.muxes cfg.dry_run probe st9.channels
  let st10 : BState := { st9 with channels := ded.2 }
  let prn := prune_invalid_services_per_channel st10.services net_uuid
    cfg.net_name st10.muxes cfg.dry_run st10.channels
  (orp.1 ++ dis.1 ++ map.1 ++ cln.1 ++ ded.1 ++ prn.1,
   { st10 with channels := prn.2 })

/-- `scan(progress_callback)`: the full pipeline.  `t i` is the elapsed
time the poller observes at its `i`-th iteration; `fuel` bounds the number
of poll iterations modelled (`Option.none` = still polling); `probe` is
the external stream-probe oracle.  Returns the success flag, the final
backend state and the mutation trace. -/
def scan (cfg : ScanConfig) (t : Nat → Nat) (fuel : Nat)
    (probe : ChanEntry → Bool) (st : BState) :
    Option (Bool × BState × List Effect) :=
  let e0 : List Effect := if cfg.dry_run then [] else [.epgSave]
  match get_network_uuid cfg.net_name st.networks with
  | Option.none => some (false, st, e0)
  | some nu =>
    if nu == "" then some (false, st, e0)
    else
      let pre := scan_pre cfg nu st
      match poll_loop t cfg.timeout_secs (count_mux_states nu pre.2.muxes) 0 fuel with
      | Option.none => Option.none
      | some false => some (false, pre.2, e0 ++ pre.1)
      | some true =>
        let post := scan_post cfg nu probe pre.2
        some (true, post.2, e0 ++ pre.1 ++ post.1)

/-! ## Spec-side predicates and effect discriminators -/

/-- Modelled from the spec's words, for comparison with the code: a
scan result counted as "Ok (integer 1 or string OK)", read literally. -/
def spec_scan_result_ok_strict (v : PyVal) : Bool :=
  v == .int 1 || v == .str "OK"

/-- The scan-result acceptance the code actually implements: an int-like
equal to 1 (Python bools included) or a string whose uppercase form is
`"OK"`. -/
def scan_result_ok_liberal (v : PyVal) : Bool :=
  match v with
  | .int n => n == 1
  | .bool b => (if b then (1 : Int) else 0) == 1
  | .str s => pyUpper s == "OK"
  | _ => false

/-- Effects that touch channels (the reconcile, cleanup, dedup and prune
phases). -/
def is_channel_op : Effect → Bool
  | .orphanChanDelete _ => true
  | .chanCreate _ _ => true
  | .unnamedChanDelete _ => true
  | .dedupSave _ => true
  | .dedupChanDelete _ => true
  | .streamProbe _ => true
  | .pruneSave _ => true
  | .pruneChanDelete _ => true
  | _ => false

/-- Mux deletions. -/
def is_mux_delete : Effect → Bool
  | .muxDelete _ => true
  | _ => false

/-- Mux creations. -/
def is_mux_create : Effect → Bool
  | .muxCreate _ _ => true
  | _ => false

/-- Any delete operation (mux or channel, at any call site). -/
def is_delete_op : Effect → Bool
  | .muxDelete _ => true
  | .orphanChanDelete _ => true
  | .unnamedChanDelete _ => true
  | .dedupChanDelete _ => true
  | .pruneChanDelete _ => true
  | _ => false

/-- Channel creations. -/
def is_chan_create : Effect → Bool
  | .chanCreate _ _ => true
  | _ => false

/-! ## Generic list helpers -/

/-- A `filterMap` that fixes every member is the identity. -/
theorem filterMap_id_of_mem {α : Type} {f : α → Option α} {l : List α}
    (h : ∀ x ∈ l, f x = some x) : l.filterMap f = l := by
  induction l with
  | nil => rfl
  | cons a t ih =>
    rw [List.filterMap_cons, h a (by simp)]
    simp only [List.cons.injEq, true_and]
    exact ih (fun x hx => h x (by simp [hx]))

/-- A `map` that fixes every member is the identity. -/
theorem map_id_of_mem {α : Type} {f : α → α} {l : List α}
    (h : ∀ x ∈ l, f x = x) : l.map f = l := by
  induction l with
  | nil => rfl
  | cons a t ih =>
    rw [List.map_cons, h a (by simp)]
    simp only [List.cons.injEq, true_and]
    exact ih (fun x hx => h x (by simp [hx]))

/-- A filter keeping as many elements as there were keeps them all. -/
theorem all_of_length_filter_eq {α : Type} {p : α → Bool} {l : List α}
    (h : (l.filter p).length = l.length) : ∀ x ∈ l, p x = true := by
  induction l with
  | nil => simp
  | cons a t ih =>
    intro x hx
    by_cases hpa : p a = true
    · rw [List.filter_cons_of_pos hpa] at h
      rcases List.mem_cons.1 hx with rfl | hxt
      · exact hpa
      · exact ih (by simpa using h) x hxt
    · rw [List.filter_cons_of_neg (by simpa using hpa)] at h
      have := List.length_filter_le p t
      simp at h
      omega

/-! ## C5: the frequency table -/

/-- C5 counterexample: the claim asserts `rf_to_freq_hz` fails for every
RF outside 2–36, in particular at 37 — but the code has no upper bound:
RF 37 yields 611 MHz instead of raising. -/
theorem rf_to_freq_hz_no_upper_bound :
    rf_to_freq_hz 37 = some 611000000 ∧ rf_to_freq_hz 37 ≠ Option.none := by
  decide

/-- C5 (amended): `rf_to_freq_hz` returns 57 MHz at RF 2, 473 MHz at
RF 14, 509 MHz at RF 20; RF 7–13 uses `177e6 + (rf-7)*6e6`; every RF ≥ 14
(with no upper bound, so RF 37 included) uses `473e6 + (rf-14)*6e6`; and it
raises exactly for RF ≤ 1 — in particular at RF 1 — not at RF 37. -/
theorem rf_to_freq_hz_table :
    rf_to_freq_hz 2 = some 57000000 ∧
    rf_to_freq_hz 14 = some 473000000 ∧
    rf_to_freq_hz 20 = some 509000000 ∧
    (∀ rf : Int, 7 ≤ rf → rf ≤ 13 →
      rf_to_freq_hz rf = some (177000000 + (rf - 7) * 6000000)) ∧
    (∀ rf : Int, 14 ≤ rf →
      rf_to_freq_hz rf = some (473000000 + (rf - 14) * 6000000)) ∧
    rf_to_freq_hz 1 = Option.none ∧
    (∀ rf : Int, rf ≤ 1 → rf_to_freq_hz rf = Option.none) ∧
    rf_to_freq_hz 37 = some 611000000 := by
  refine ⟨by decide, by decide, by decide, ?_, ?_, by decide, ?_, by decide⟩
  · intro rf h1 h2
    unfold rf_to_freq_hz
    rw [if_neg (by omega), if_pos (by omega)]
  · intro rf h1
    unfold rf_to_freq_hz
    rw [if_pos (by omega)]
  · intro rf h1
    unfold rf_to_freq_hz
    rw [if_neg (by omega), if_neg (by omega), if_neg (by omega),
      if_neg (by omega), if_neg (by omega), if_neg (by omega),
      if_neg (by omega)]

/-- C5 witness: the band formulas and the failure branch at concrete RFs. -/
theorem rf_to_freq_hz_table_witness :
    rf_to_freq_hz 9 = some (177000000 + (9 - 7) * 6000000) ∧
    rf_to_freq_hz 30 = some (473000000 + (30 - 14) * 6000000) ∧
    rf_to_freq_hz 0 = Option.none :=
  ⟨rf_to_freq_hz_table.2.2.2.1 9 (by decide) (by decide),
   rf_to_freq_hz_table.2.2.2.2.1 30 (by decide),
   rf_to_freq_hz_table.2.2.2.2.2.2.1 0 (by decide)⟩

/-! ## C7: mux health classification -/

/-- `_mux_is_ok` in closed form: enabled (defaulting to true) and the
liberal scan-result acceptance. -/
theorem mux_is_ok_eq (en sr : Option PyVal) :
    mux_is_ok en sr =
      (truthy (en.getD (.bool true)) && scan_result_ok_liberal (getF sr)) := by
  unfold mux_is_ok scan_result_ok_liberal
  cases truthy (en.getD (.bool true)) <;> cases getF sr <;> simp

/-- C7 counterexample: the claim counts only integer 1 and the exact
string `"OK"` as good, anything else as not good — but the code uppercases
strings first, so `enabled=true, scan_result="ok"` classifies as good even
though `"ok"` is neither of the claim's two accepted values. -/
theorem mux_is_ok_lowercase_counterexample :
    mux_is_ok (some (.bool true)) (some (.str "ok")) = true ∧
    PyVal.str "ok" ≠ PyVal.int 1 ∧ PyVal.str "ok" ≠ PyVal.str "OK" := by
  decide

/-- C7 (amended): `enabled=true, scan_result=1` and `enabled=true,
scan_result="OK"` are good; `enabled=false` is never good; and a record
whose scan result fails the code's liberal test (an int-like equal to 1 —
Python bools included — or a string uppercasing to `"OK"`), or whose scan
result is absent, is never good. -/
theorem mux_health_classification :
    mux_is_ok (some (.bool true)) (some (.int 1)) = true ∧
    mux_is_ok (some (.bool true)) (some (.str "OK")) = true ∧
    (∀ sr : Option PyVal, mux_is_ok (some (.bool false)) sr = false) ∧
    (∀ en sr : Option PyVal, scan_result_ok_liberal (getF sr) = false →
      mux_is_ok en sr = false) := by
  refine ⟨by decide, by decide, ?_, ?_⟩
  · intro sr
    rw [mux_is_ok_eq]
    simp [truthy]
  · intro en sr h
    rw [mux_is_ok_eq, h]
    simp

/-- C7 witness: `scan_result=2` is not accepted, so the mux is not good;
neither is a disabled mux with `scan_result=1`. -/
theorem mux_health_classification_witness :
    scan_result_ok_liberal (getF (some (.int 2))) = false ∧
    mux_is_ok (some (.bool true)) (some (.int 2)) = false ∧
    mux_is_ok (some (.bool false)) (some (.int 1)) = false :=
  ⟨by decide,
   mux_health_classification.2.2.2 (some (.bool true)) (some (.int 2)) (by decide),
   mux_health_classification.2.2.1 (some (.int 1))⟩

/-! ## C6: dry-run is not threaded through every mutating call site -/

/-- Constant elapsed-time oracle for concrete runs: the poll never times
out. -/
def t_zero : Nat → Nat := fun _ => 0

/-- Stream-probe oracle for concrete runs: nothing streams. -/
def probe_none : ChanEntry → Bool := fun _ => false

/-- Concrete dry-run configuration: wipe on, one RF, dry_run set. -/
def cfg_dry : ScanConfig :=
  { rf_start := 2, rf_end := 2, wipe_existing_muxes := true, dry_run := true }

/-- Concrete backend for the dry-run check: the network, one mux on it,
and one placeholder-named channel. -/
def st_dry : BState :=
  { networks := [{ networkname := some (.str "ATSC OTA"), uuid := "net1" }]
    muxes := [{ uuid := "m1", network_uuid := some (.str "net1")
                enabled := some (.bool true), scan_result := some (.int 1)
                scan_state := some (.int 0) }]
    channels := [{ uuid := "c1", name := some (.str "{name-not-set}")
                   services := [.str "x"] }] }

/-- C6: with `dry_run=True` the pipeline still posts real mutations — the
mux wipe (`delete_mux_uuid`), the mux creations (`create_mux_atsc`), the
force-scan writes and the unnamed-channel deletions
(`cleanup_unnamed_channels`) carry no dry-run guard: the placeholder
channel really is deleted (the final grid is empty). -/
theorem dry_run_still_mutates :
    cfg_dry.dry_run = true ∧
    (scan cfg_dry t_zero 2 probe_none st_dry).map
        (fun r => (r.1, r.2.2, r.2.1.channels.length)) =
      some (true,
        [Effect.muxDelete "m1", Effect.muxCreate "net1" 57000000,
         Effect.muxScan "mux-0", Effect.unnamedChanDelete "c1"], 0) := by
  constructor
  · rfl
  · decide

/-! ## C4 counterexample: a second run is not operation-free -/

/-- Configuration for the idempotence check (one RF, wipe on — the default
shipped configuration). -/
def cfg_rerun : ScanConfig := { rf_start := 2, rf_end := 2 }

/-- Fresh backend: just the network. -/
def st_rerun0 : BState :=
  { networks := [{ networkname := some (.str "ATSC OTA"), uuid := "net1" }] }

/-- The first full run. -/
def rerun1 : Option (Bool × BState × List Effect) :=
  scan cfg_rerun t_zero 2 probe_none st_rerun0

/-- The second full run, against the backend exactly as the first completed
run left it. -/
def rerun2 : Option (Bool × BState × List Effect) :=
  rerun1.bind (fun r => scan cfg_rerun t_zero 2 probe_none r.2.1)

/-- C4 counterexample: the first run completes successfully, and the
second run — against the unchanged backend — still issues a mux delete
(the wipe) and a mux create, so the claimed "no create operations and no
delete operations" fails. -/
theorem scan_rerun_counterexample :
    rerun1.map (·.1) = some true ∧
    rerun2.map (fun r => (r.1, r.2.2.any is_mux_delete, r.2.2.any is_mux_create)) =
      some (true, true, true) := by
  constructor
  · decide
  · decide

/-! ## C10: an absent `enabled` field defaults to enabled -/

/-- C10: a mux grid row with no `enabled` key at all is treated as enabled
throughout — the health map and the mux index record `enabled=True`, the
good-mux test accepts it when its scan result is 1 or `"OK"`, and a
channel→service link resolving to it passes `service_is_acceptable`, so
the link survives pruning. -/
theorem missing_enabled_defaults_good
    (e : MuxEntry) (net_uuid net_name su : String) (svc : SvcEntry)
    (hen : e.enabled = Option.none)
    (hu : e.uuid ≠ "")
    (hnu : net_uuid ≠ "")
    (hnet : net_matches net_uuid net_name e = true)
    (hsr : e.scan_result = some (.int 1) ∨ e.scan_result = some (.str "OK"))
    (hsu : su ≠ "")
    (hsvcu : svc.uuid = su)
    (hsvcm : svc.pMultiplex = some (.str e.uuid))
    (hsvcn : svc.pNetworkUuid = some (.str net_uuid)) :
    (health_entry e).enabled = true ∧
    dlookup (get_mux_health_for_network net_uuid net_name [e]) e.uuid =
      some (health_entry e) ∧
    mux_is_ok_rec (health_entry e) = true ∧
    (index_entry e).enabled = true ∧
    e.uuid ∈ get_good_muxes net_uuid net_name [e] ∧
    (service_is_acceptable [svc] net_uuid net_name
        (get_mux_index net_uuid net_name [e]) su).1 = true ∧
    link_ok [svc] net_uuid net_name (get_mux_index net_uuid net_name [e])
      (.str su) = true := by
  have h1 : (health_entry e).enabled = true := by
    simp [health_entry, hen, truthy]
  have h3 : mux_is_ok_rec (health_entry e) = true := by
    rcases hsr with h | h <;>
      simp [mux_is_ok_rec, mux_is_ok_eq, health_entry, hen, h, truthy, getF,
        scan_result_ok_liberal] <;> decide
  have h2 : get_mux_health_for_network net_uuid net_name [e] =
      [(e.uuid, health_entry e)] := by
    simp [get_mux_health_for_network, hnet, hu]
  have hidx : get_mux_index net_uuid net_name [e] =
      [(e.uuid, index_entry e)] := by
    simp [get_mux_index, hnet, hu]
  have h4 : (index_entry e).enabled = true := by
    simp [index_entry, hen, truthy]
  have h5 : e.uuid ∈ get_good_muxes net_uuid net_name [e] := by
    simp [get_good_muxes, h2, h3]
  have hacc : (service_is_acceptable [svc] net_uuid net_name
      (get_mux_index net_uuid net_name [e]) su).1 = true := by
    rw [hidx]
    simp [service_is_acceptable, idnode_load_service, acceptable_mux_check,
      getF, pyOr, truthy, pyEq, hu, hnu, dlookup, h4, hsvcu, hsvcm, hsvcn]
    rcases hsr with h | h <;>
      simp [index_entry, h, getF] <;> decide
  refine ⟨h1, by rw [h2]; simp [dlookup], h3, h4, h5, hacc, ?_⟩
  simp [link_ok, hsu, hacc]

/-- A concrete mux row with no `enabled` key and an OK scan. -/
def mux_no_enabled : MuxEntry :=
  { uuid := "m1", network_uuid := some (.str "net1")
    scan_result := some (.int 1) }

/-- A concrete service resolving to that mux. -/
def svc_on_m1 : SvcEntry :=
  { uuid := "s1", pMultiplex := some (.str "m1")
    pNetworkUuid := some (.str "net1") }

/-- C10 witness: the defaulting at a concrete grid row. -/
theorem missing_enabled_defaults_good_witness :
    (health_entry mux_no_enabled).enabled = true ∧
    dlookup (get_mux_health_for_network "net1" "ATSC OTA" [mux_no_enabled])
        mux_no_enabled.uuid = some (health_entry mux_no_enabled) ∧
    mux_is_ok_rec (health_entry mux_no_enabled) = true ∧
    (index_entry mux_no_enabled).enabled = true ∧
    mux_no_enabled.uuid ∈ get_good_muxes "net1" "ATSC OTA" [mux_no_enabled] ∧
    (service_is_acceptable [svc_on_m1] "net1" "ATSC OTA"
        (get_mux_index "net1" "ATSC OTA" [mux_no_enabled]) "s1").1 = true ∧
    link_ok [svc_on_m1] "net1" "ATSC OTA"
        (get_mux_index "net1" "ATSC OTA" [mux_no_enabled]) (.str "s1") = true :=
  missing_enabled_defaults_good mux_no_enabled "net1" "ATSC OTA" "s1" svc_on_m1
    rfl (by decide) (by decide) (by decide) (Or.inl rfl) (by decide)
    rfl rfl rfl

/-! ## C9: the deduplicator's exclusion set is hardcoded -/

/-- Two channels named `"FOO"`. -/
def chan_foo1 : ChanEntry :=
  { uuid := "u1", name := some (.str "FOO"), services := [.str "x"] }

/-- Second channel named `"FOO"`. -/
def chan_foo2 : ChanEntry :=
  { uuid := "u2", name := some (.str "FOO"), services := [.str "y"] }

/-- C9 counterexample: with `unnamed_channel_names = "FOO"` the name
`"FOO"` is a configured placeholder, yet the deduplicator still groups the
two `"FOO"` channels, merges them and deletes one — its exclusion check is
the hardcoded `"{name-not-set}"`, not the configured set. -/
theorem dedup_ignores_configured_placeholder_counterexample :
    (unnamed_markers { unnamed_channel_names := "FOO" }).contains "FOO" = true ∧
    dedup_core [] [] false probe_none [chan_foo1, chan_foo2] =
      ([.streamProbe "u1", .streamProbe "u2", .dedupSave "u1",
        .dedupChanDelete "u2"],
       [{ chan_foo1 with services := [.str "x", .str "y"] }]) := by
  decide

/-- C9 (amended): for every configuration, the deduplicator excludes from
grouping exactly the channels whose name is not a string, trims blank, or
trims to the hardcoded `"{name-not-set}"` marker; such channels are left
untouched — never merged, never deleted.  (The configured
`unnamed_channel_names` set plays no part here; it is honoured only by
`cleanup_unnamed_channels`.) -/
theorem dedup_skips_blank_and_hardcoded_placeholder
    (s2m : List (String × String)) (good : List String) (dry : Bool)
    (probe : ChanEntry → Bool) (channels : List ChanEntry) (ch : ChanEntry)
    (hmem : ch ∈ channels) (hkey : chanKey ch = Option.none) :
    dedup_result_one s2m good dry probe channels ch = some ch ∧
    ch ∈ (dedup_core s2m good dry probe channels).2 ∧
    (∀ s, ch.name = some (.str s) → pyTrim s = "" ∨ pyTrim s = "{name-not-set}") := by
  have h1 : dedup_result_one s2m good dry probe channels ch = some ch := by
    unfold dedup_result_one
    rw [hkey]
  refine ⟨h1, ?_, ?_⟩
  · simp only [dedup_core]
    exact List.mem_filterMap.2 ⟨ch, hmem, h1⟩
  · intro s hs
    unfold chanKey at hkey
    rw [hs] at hkey
    by_contra hcon
    push_neg at hcon
    simp [hcon.1, hcon.2] at hkey

/-- A placeholder-named channel. -/
def chan_placeholder : ChanEntry :=
  { uuid := "w1", name := some (.str " {name-not-set} "), services := [.str "z"] }

/-- C9 witness: the placeholder-named channel survives dedup untouched in a
grid that also contains two mergeable channels. -/
theorem dedup_skips_blank_and_hardcoded_placeholder_witness :
    dedup_result_one [] [] false probe_none
        [chan_placeholder, chan_foo1, chan_foo2] chan_placeholder =
      some chan_placeholder ∧
    chan_placeholder ∈
      (dedup_core [] [] false probe_none
        [chan_placeholder, chan_foo1, chan_foo2]).2 ∧
    (∀ s, chan_placeholder.name = some (.str s) →
      pyTrim s = "" ∨ pyTrim s = "{name-not-set}") :=
  dedup_skips_blank_and_hardcoded_placeholder [] [] false probe_none
    [chan_placeholder, chan_foo1, chan_foo2] chan_placeholder
    (by decide) (by decide)

/-! ## C1: the Pruner invariant -/

/-- Unpacking a positive `acceptable_mux_check`: a valid mux uuid found in
the index, enabled, with an accepted scan result. -/
theorem acceptable_mux_check_true (idx : List (String × MuxIdxRec)) (mu : PyVal)
    (h : (acceptable_mux_check idx mu).1 = true) :
    ∃ m, mu = .str m ∧ m ≠ "" ∧ ∃ info, dlookup idx m = some info ∧
      info.enabled = true ∧ scan_result_ok_liberal info.scan_result = true := by
  cases mu with
  | str m =>
    refine ⟨m, rfl, ?_⟩
    simp only [acceptable_mux_check] at h
    split at h
    · simp at h
    · rename_i hm
      refine ⟨by simpa using hm, ?_⟩
      split at h
      · simp at h
      · rename_i info hinfo
        refine ⟨info, hinfo, ?_⟩
        split at h
        · simp at h
        · rename_i hena
          refine ⟨by simpa using hena, ?_⟩
          split at h
          · rename_i n hn
            split at h
            · simp at h
            · rename_i hne
              simp only [scan_result_ok_liberal, hn]
              simpa using hne
          · rename_i b hb
            cases b
            · simp at h
            · simp [scan_result_ok_liberal, hb]
          · rename_i s2 hs2
            split at h
            · simp at h
            · rename_i hne
              simp only [scan_result_ok_liberal, hs2]
              simpa using hne
          · simp at h
  | none => simp [acceptable_mux_check] at h
  | bool b => simp [acceptable_mux_check] at h
  | int n => simp [acceptable_mux_check] at h

/-- Unpacking a positive `service_is_acceptable`: the service idnode
resolved and its mux passed the check. -/
theorem service_is_acceptable_true (svcs : List SvcEntry) (nu nn : String)
    (idx : List (String × MuxIdxRec)) (s : String)
    (h : (service_is_acceptable svcs nu nn idx s).1 = true) :
    ∃ ent, idnode_load_service svcs s = some ent ∧
      (acceptable_mux_check idx (pyOr (getF ent.pMultiplex) (getF ent.pMux))).1 = true := by
  cases hl : idnode_load_service svcs s with
  | none =>
    simp only [service_is_acceptable, hl, acceptable_mux_check] at h
    exact Bool.noConfusion h
  | some ent =>
    simp only [service_is_acceptable, hl] at h
    refine ⟨ent, rfl, ?_⟩
    split at h
    · simp at h
    · exact h

/-- Unpacking the Pruner's keep-condition into the claim's components. -/
theorem link_ok_spec (svcs : List SvcEntry) (nu nn : String)
    (idx : List (String × MuxIdxRec)) (su : PyVal)
    (h : link_ok svcs nu nn idx su = true) :
    ∃ s, su = .str s ∧ s ≠ "" ∧
    ∃ ent, idnode_load_service svcs s = some ent ∧
    ∃ m, pyOr (getF ent.pMultiplex) (getF ent.pMux) = .str m ∧ m ≠ "" ∧
    ∃ info, dlookup idx m = some info ∧ info.enabled = true ∧
      scan_result_ok_liberal info.scan_result = true := by
  cases su with
  | str s =>
    simp only [link_ok, Bool.and_eq_true] at h
    obtain ⟨hs, hacc⟩ := h
    refine ⟨s, rfl, by simpa using hs, ?_⟩
    obtain ⟨ent, hent, hmu⟩ := service_is_acceptable_true svcs nu nn idx s hacc
    obtain ⟨m, hm, hm2, info, hinfo, hen, hsr⟩ := acceptable_mux_check_true idx _ hmu
    exact ⟨ent, hent, m, hm, hm2, info, hinfo, hen, hsr⟩
  | none => simp [link_ok] at h
  | bool b => simp [link_ok] at h
  | int n => simp [link_ok] at h

/-- The Pruner never changes a channel's uuid. -/
theorem prune_one_uuid (svcs : List SvcEntry) (nu nn : String)
    (idx : List (String × MuxIdxRec)) (dry : Bool) (ch c2 : ChanEntry)
    (h : (prune_one svcs nu nn idx dry ch).1 = some c2) : c2.uuid = ch.uuid := by
  unfold prune_one at h
  split at h
  · cases h; rfl
  · split at h
    · cases h; rfl
    · split at h
      · cases h; rfl
      · split at h
        · cases h; rfl
        · split at h
          · simp at h
          · cases h; rfl

/-- Every services entry of a channel the Pruner leaves behind passes the
keep-condition. -/
theorem prune_one_kept_ok (svcs : List SvcEntry) (nu nn : String)
    (idx : List (String × MuxIdxRec)) (ch c2 : ChanEntry)
    (hu : ch.uuid ≠ "")
    (h : (prune_one svcs nu nn idx false ch).1 = some c2) :
    ∀ su ∈ c2.services, link_ok svcs nu nn idx su = true := by
  unfold prune_one at h
  rw [if_neg (by simpa using hu)] at h
  split at h
  · rename_i hemp
    cases h
    intro su hsu
    rw [List.isEmpty_iff] at hemp
    rw [hemp] at hsu
    cases hsu
  · split at h
    · rename_i hlen
      cases h
      intro su hsu
      exact all_of_length_filter_eq (by simpa using hlen) su hsu
    · rw [if_neg (by simp)] at h
      split at h
      · simp at h
      · cases h
        intro su hsu
        exact (List.mem_filter.1 hsu).2

/-- A channel with a nonempty services list in which every entry fails the
keep-condition is deleted by the Pruner. -/
theorem prune_one_all_bad (svcs : List SvcEntry) (nu nn : String)
    (idx : List (String × MuxIdxRec)) (ch : ChanEntry)
    (hu : ch.uuid ≠ "") (hne : ch.services ≠ [])
    (hbad : ∀ su ∈ ch.services, link_ok svcs nu nn idx su = false) :
    (prune_one svcs nu nn idx false ch).1 = Option.none := by
  have hk : ch.services.filter (link_ok svcs nu nn idx) = [] :=
    List.filter_eq_nil_iff.2 (fun a ha => by simp [hbad a ha])
  have hlen : ch.services.length ≠ 0 := fun h0 => hne (List.length_eq_zero.1 h0)
  unfold prune_one
  rw [if_neg (by simpa using hu), if_neg (by simpa using hne), hk]
  simp [hlen]
  rw [if_neg (fun h0 => hlen h0.symm)]

/-- C1 (amended): after a non-dry-run prune with all writes succeeding, on
a grid whose channels carry valid, pairwise distinct uuids: every surviving
channel's services entry is a valid service uuid resolving to a mux that is
in the mux index for the target network, enabled, and carries a scan result
the code accepts as Ok (integer 1 — Python bools included — or a string
whose uppercase form is "OK"); and every channel all of whose (nonempty)
links were invalid has been deleted. -/
theorem prune_invariant (svcs : List SvcEntry) (net_uuid net_name : String)
    (muxes : List MuxEntry) (channels : List ChanEntry)
    (hu : ∀ ch ∈ channels, ch.uuid ≠ "")
    (hnd : (channels.map (fun c => c.uuid)).Nodup) :
    (∀ c2 ∈ (prune_invalid_services_per_channel svcs net_uuid net_name muxes
        false channels).2,
      ∀ su ∈ c2.services,
        link_ok svcs net_uuid net_name (get_mux_index net_uuid net_name muxes)
          su = true) ∧
    (∀ c2 ∈ (prune_invalid_services_per_channel svcs net_uuid net_name muxes
        false channels).2,
      ∀ su ∈ c2.services,
        ∃ s, su = .str s ∧ s ≠ "" ∧
        ∃ ent, idnode_load_service svcs s = some ent ∧
        ∃ m, pyOr (getF ent.pMultiplex) (getF ent.pMux) = .str m ∧ m ≠ "" ∧
        ∃ info, dlookup (get_mux_index net_uuid net_name muxes) m = some info ∧
          info.enabled = true ∧
          scan_result_ok_liberal info.scan_result = true) ∧
    (∀ ch ∈ channels, ch.services ≠ [] →
      (∀ su ∈ ch.services,
        link_ok svcs net_uuid net_name (get_mux_index net_uuid net_name muxes)
          su = false) →
      ∀ c2 ∈ (prune_invalid_services_per_channel svcs net_uuid net_name muxes
          false channels).2,
        c2.uuid ≠ ch.uuid) := by
  have hres : (prune_invalid_services_per_channel svcs net_uuid net_name muxes
      false channels).2 =
      channels.filterMap (fun ch =>
        (prune_one svcs net_uuid net_name
          (get_mux_index net_uuid net_name muxes) false ch).1) := rfl
  have hA : ∀ c2 ∈ (prune_invalid_services_per_channel svcs net_uuid net_name
      muxes false channels).2,
      ∀ su ∈ c2.services,
        link_ok svcs net_uuid net_name (get_mux_index net_uuid net_name muxes)
          su = true := by
    intro c2 hc2 su hsu
    rw [hres] at hc2
    obtain ⟨ch, hch, hpr⟩ := List.mem_filterMap.1 hc2
    exact prune_one_kept_ok svcs net_uuid net_name _ ch c2 (hu ch hch) hpr su hsu
  refine ⟨hA, ?_, ?_⟩
  · intro c2 hc2 su hsu
    exact link_ok_spec svcs net_uuid net_name _ su (hA c2 hc2 su hsu)
  · intro ch hch hne hbad c2 hc2 heq
    rw [hres] at hc2
    obtain ⟨ch2, hch2, hpr⟩ := List.mem_filterMap.1 hc2
    have huid : ch2.uuid = ch.uuid := by
      rw [← prune_one_uuid svcs net_uuid net_name _ false ch2 c2 hpr, heq]
    have : ch2 = ch := List.inj_on_of_nodup_map hnd hch2 hch huid
    subst this
    rw [prune_one_all_bad svcs net_uuid net_name _ ch2 (hu ch2 hch2) hne hbad] at hpr
    cases hpr

/-- A mux whose scan result is the lowercase string `"ok"`. -/
def mux_ok_lower : MuxEntry :=
  { uuid := "m1", network_uuid := some (.str "net1")
    enabled := some (.bool true), scan_result := some (.str "ok") }

/-- A service resolving to that mux. -/
def svc_s1 : SvcEntry := { uuid := "s1", pMultiplex := some (.str "m1") }

/-- A channel linked to that service. -/
def chan_c1 : ChanEntry := { uuid := "c1", services := [.str "s1"] }

/-- C1 counterexample: the claim reads "scan_result Ok (integer 1 or string
OK)" — but the Pruner keeps a link whose mux reports the lowercase string
`"ok"`, which is neither of those two values: the channel survives the
prune untouched. -/
theorem prune_keeps_lowercase_ok_counterexample :
    (prune_invalid_services_per_channel [svc_s1] "net1" "ATSC OTA"
        [mux_ok_lower] false [chan_c1]).2 = [chan_c1] ∧
    dlookup (get_mux_index "net1" "ATSC OTA" [mux_ok_lower]) "m1" =
      some (index_entry mux_ok_lower) ∧
    (index_entry mux_ok_lower).scan_result = .str "ok" ∧
    spec_scan_result_ok_strict (.str "ok") = false := by
  decide

/-- A healthy mux for the prune witness. -/
def mux_good : MuxEntry :=
  { uuid := "mg", network_uuid := some (.str "net1")
    enabled := some (.bool true), scan_result := some (.int 1) }

/-- A service on the healthy mux. -/
def svc_good : SvcEntry := { uuid := "sg", pMultiplex := some (.str "mg") }

/-- A channel with only the good link. -/
def chan_good : ChanEntry := { uuid := "cg", services := [.str "sg"] }

/-- A channel with only a dangling link. -/
def chan_dangling : ChanEntry := { uuid := "cd", services := [.str "zz"] }

/-- C1 witness: the invariant at a concrete two-channel grid — the good
channel survives with its link validated, the all-invalid channel is
deleted. -/
theorem prune_invariant_witness :
    (∀ c2 ∈ (prune_invalid_services_per_channel [svc_good] "net1" "ATSC OTA"
        [mux_good] false [chan_good, chan_dangling]).2,
      ∀ su ∈ c2.services,
        link_ok [svc_good] "net1" "ATSC OTA"
          (get_mux_index "net1" "ATSC OTA" [mux_good]) su = true) ∧
    (∀ c2 ∈ (prune_invalid_services_per_channel [svc_good] "net1" "ATSC OTA"
        [mux_good] false [chan_good, chan_dangling]).2,
      ∀ su ∈ c2.services,
        ∃ s, su = .str s ∧ s ≠ "" ∧
        ∃ ent, idnode_load_service [svc_good] s = some ent ∧
        ∃ m, pyOr (getF ent.pMultiplex) (getF ent.pMux) = .str m ∧ m ≠ "" ∧
        ∃ info, dlookup (get_mux_index "net1" "ATSC OTA" [mux_good]) m =
            some info ∧
          info.enabled = true ∧
          scan_result_ok_liberal info.scan_result = true) ∧
    (∀ ch ∈ [chan_good, chan_dangling], ch.services ≠ [] →
      (∀ su ∈ ch.services,
        link_ok [svc_good] "net1" "ATSC OTA"
          (get_mux_index "net1" "ATSC OTA" [mux_good]) su = false) →
      ∀ c2 ∈ (prune_invalid_services_per_channel [svc_good] "net1" "ATSC OTA"
          [mux_good] false [chan_good, chan_dangling]).2,
        c2.uuid ≠ ch.uuid) :=
  prune_invariant [svc_good] "net1" "ATSC OTA" [mux_good]
    [chan_good, chan_dangling] (by decide) (by decide)

/-! ## C2: deduplication of three same-named channels -/

/-- `List.contains` read as membership. -/
theorem contains_eq_false_iff {s : String} {l : List String} :
    l.contains s = false ↔ s ∉ l := by
  rw [← Bool.not_eq_true]
  exact not_congr (by simp only [List.contains]; exact List.elem_iff)

/-- The grouping key ignores the services field. -/
theorem chanKey_set_services (ch : ChanEntry) (x : List PyVal) :
    chanKey { ch with services := x } = chanKey ch := rfl

/-- Dedup never changes a channel name, hence never its grouping key. -/
theorem dedup_result_one_key (s2m : List (String × String)) (good : List String)
    (dry : Bool) (probe : ChanEntry → Bool) (snapshot : List ChanEntry)
    (c d : ChanEntry)
    (h : dedup_result_one s2m good dry probe snapshot c = some d) :
    chanKey d = chanKey c := by
  unfold dedup_result_one at h
  split at h
  · cases h; rfl
  · split at h
    · cases h; rfl
    · split at h
      · cases h; rfl
      · split at h
        · cases h; rfl
        · split at h
          · cases h
            exact chanKey_set_services c _
          · split at h
            · cases h; rfl
            · cases h

/-- A name-filter commutes with a key-preserving `filterMap`. -/
theorem filter_filterMap_comm (f : ChanEntry → Option ChanEntry)
    (p : ChanEntry → Bool)
    (hf : ∀ c d, f c = some d → p d = p c) (l : List ChanEntry) :
    (l.filterMap f).filter p = (l.filter p).filterMap f := by
  induction l with
  | nil => rfl
  | cons a t ih =>
    rw [List.filterMap_cons]
    cases hfa : f a with
    | none =>
      rw [List.filter_cons]
      by_cases hpa : p a = true
      · rw [if_pos hpa, List.filterMap_cons, hfa, ih]
      · rw [if_neg hpa, ih]
    | some d =>
      rw [List.filter_cons, List.filter_cons]
      by_cases hpa : p a = true
      · rw [if_pos ((hf a d hfa).trans hpa), if_pos hpa, List.filterMap_cons,
          hfa, ih]
      · rw [if_neg (fun hc => hpa (((hf a d hfa)).symm.trans hc)), if_neg hpa, ih]

/-- Lexicographic comparison is decided by a strictly smaller head. -/
theorem keyLE_of_fst_lt {a b : Int × Int × Int × Int × Int} (h : a.1 < b.1) :
    keyLE a b = true := by
  unfold keyLE
  simp [h]

/-- A three-element list already in ascending key order is left as-is. -/
theorem sortEnr_three {x y z : Enr} (hxy : keyLE (enrKey x) (enrKey y) = true)
    (hyz : keyLE (enrKey y) (enrKey z) = true) :
    sortEnr [x, y, z] = [x, y, z] := by
  simp [sortEnr, insortEnr, hxy, hyz]

/-- Membership in the service merge: exactly the nonempty string uuids of
the walked lists that are not already seen. -/
theorem merge_go_mem (s : String) :
    ∀ (l : List PyVal) (seen : List String),
      s ∈ merge_go l seen ↔ (PyVal.str s ∈ l ∧ s ≠ "" ∧ s ∉ seen) := by
  intro l
  induction l with
  | nil => intro seen; simp [merge_go]
  | cons su rest ih =>
    intro seen
    cases su with
    | str x =>
      simp only [merge_go]
      split
      · rename_i hcond
        rw [Bool.and_eq_true, bne_iff_ne, Bool.not_eq_true'] at hcond
        obtain ⟨hx1, hx2⟩ := hcond
        have hx2m : x ∉ seen := contains_eq_false_iff.1 hx2
        simp only [List.mem_cons, ih, PyVal.str.injEq]
        constructor
        · rintro (rfl | ⟨h1, h2, h3⟩)
          · exact ⟨Or.inl rfl, hx1, hx2m⟩
          · exact ⟨Or.inr h1, h2, fun hm => h3 (Or.inr hm)⟩
        · rintro ⟨h1 | h1, h2, h3⟩
          · exact Or.inl h1
          · by_cases hsx : s = x
            · exact Or.inl hsx
            · refine Or.inr ⟨h1, h2, fun hm => ?_⟩
              rcases hm with he | he
              · exact hsx he
              · exact h3 he
      · rename_i hcond
        have hd : x = "" ∨ x ∈ seen := by
          by_contra hno
          push_neg at hno
          exact hcond (by
            rw [Bool.and_eq_true, bne_iff_ne, Bool.not_eq_true']
            exact ⟨hno.1, contains_eq_false_iff.2 hno.2⟩)
        rw [ih seen]
        simp only [List.mem_cons, PyVal.str.injEq]
        constructor
        · rintro ⟨h1, h2, h3⟩
          exact ⟨Or.inr h1, h2, h3⟩
        · rintro ⟨h1 | h1, h2, h3⟩
          · subst h1
            rcases hd with hd | hd
            · exact absurd hd h2
            · exact absurd hd h3
          · exact ⟨h1, h2, h3⟩
    | none => simp [merge_go, ih]
    | bool b => simp [merge_go, ih]
    | int n => simp [merge_go, ih]

/-- The merge never emits an already-seen uuid. -/
theorem merge_go_not_mem_seen :
    ∀ (l : List PyVal) (seen : List String), ∀ s ∈ merge_go l seen, s ∉ seen := by
  intro l seen s hs
  exact ((merge_go_mem s l seen).1 hs).2.2

/-- The merged service list holds no duplicates. -/
theorem merge_go_nodup :
    ∀ (l : List PyVal) (seen : List String), (merge_go l seen).Nodup := by
  intro l
  induction l with
  | nil => intro seen; simp [merge_go]
  | cons su rest ih =>
    intro seen
    cases su with
    | str x =>
      simp only [merge_go]
      split
      · refine List.nodup_cons.2 ⟨?_, ih _⟩
        intro hx
        exact (merge_go_not_mem_seen rest (x :: seen) x hx) (by simp)
      · exact ih seen
    | none => simpa [merge_go] using ih seen
    | bool b => simpa [merge_go] using ih seen
    | int n => simpa [merge_go] using ih seen

/-- The fate of each member of the KQED-HD group when the good-service
counts are 2, 1, 0 in grid order: the count-2 member becomes the merged
canonical, every other valid-uuid member is deleted. -/
theorem dedup_result_one_kqed
    (s2m : List (String × String)) (good : List String)
    (probe : ChanEntry → Bool) (channels : List ChanEntry) (a b c : ChanEntry)
    (hfil : channels.filter (fun ch => chanKey ch == some "KQED-HD") = [a, b, c])
    (hga : good_service_count s2m good a = 2)
    (hgb : good_service_count s2m good b = 1)
    (hgc : good_service_count s2m good c = 0)
    (hua : a.uuid ≠ "") :
    ∀ ch, chanKey ch = some "KQED-HD" →
      dedup_result_one s2m good false probe channels ch =
        (if ch.uuid == a.uuid then
          some { ch with services := (merge_services [a, b, c]).map .str }
         else if ch.uuid == "" then some ch
         else Option.none) := by
  have hxy : keyLE (enrKey (enrich s2m good a)) (enrKey (enrich s2m good b)) = true := by
    apply keyLE_of_fst_lt
    show -((enrich s2m good a).gsc : Int) < -((enrich s2m good b).gsc : Int)
    show -((good_service_count s2m good a : Int)) < -((good_service_count s2m good b : Int))
    rw [hga, hgb]
    norm_num
  have hyz : keyLE (enrKey (enrich s2m good b)) (enrKey (enrich s2m good c)) = true := by
    apply keyLE_of_fst_lt
    show -((good_service_count s2m good b : Int)) < -((good_service_count s2m good c : Int))
    rw [hgb, hgc]
    norm_num
  have hsort : sortEnr ([a, b, c].map (enrich s2m good)) =
      [enrich s2m good a, enrich s2m good b, enrich s2m good c] := by
    simp only [List.map_cons, List.map_nil]
    exact sortEnr_three hxy hyz
  have hcanon : dedup_canonical s2m good false probe [a, b, c] = a := by
    unfold dedup_canonical
    rw [hsort]
    unfold pick_canonical
    have hne : ((enrich s2m good a).gsc == (enrich s2m good b).gsc) = false := by
      have : (good_service_count s2m good a == good_service_count s2m good b) = false := by
        rw [hga, hgb]
        decide
      exact this
    simp [hne]
    rfl
  have hmerge : dedup_merged s2m good [a, b, c] = merge_services [a, b, c] := by
    unfold dedup_merged
    rw [hsort]
    rfl
  intro ch hk
  simp only [dedup_result_one, hk, hfil]
  rw [if_neg (by norm_num), hcanon, hmerge]
  rw [if_neg (by simp [hua]), if_neg (by simp)]

/-- C2: for every grid whose channels trimming to "KQED-HD" are exactly
`a, b, c` with good-service-counts 2, 1, 0 (valid, distinct uuids; services
entries are nonempty strings), a non-dry dedup with all writes succeeding
leaves exactly one KQED-HD channel; it is `a` (the count-2 one), and its
services list is the duplicate-free union of the three originals. -/
theorem dedup_kqed
    (s2m : List (String × String)) (good : List String)
    (probe : ChanEntry → Bool) (channels : List ChanEntry) (a b c : ChanEntry)
    (hfil : channels.filter (fun ch => chanKey ch == some "KQED-HD") = [a, b, c])
    (hga : good_service_count s2m good a = 2)
    (hgb : good_service_count s2m good b = 1)
    (hgc : good_service_count s2m good c = 0)
    (hua : a.uuid ≠ "") (hub : b.uuid ≠ "") (huc : c.uuid ≠ "")
    (hab : b.uuid ≠ a.uuid) (hac : c.uuid ≠ a.uuid)
    (hval : ∀ v ∈ a.services ++ b.services ++ c.services,
      ∃ s, v = PyVal.str s ∧ s ≠ "") :
    ((dedup_core s2m good false probe channels).2.filter
        (fun ch => chanKey ch == some "KQED-HD")) =
      [{ a with services := (merge_services [a, b, c]).map PyVal.str }] ∧
    (∀ v, v ∈ (merge_services [a, b, c]).map PyVal.str ↔
      (v ∈ a.services ∨ v ∈ b.services ∨ v ∈ c.services)) ∧
    ((merge_services [a, b, c]).map PyVal.str).Nodup := by
  have hkey : ∀ x ∈ [a, b, c], chanKey x = some "KQED-HD" := by
    intro x hx
    have hm : x ∈ channels.filter (fun ch => chanKey ch == some "KQED-HD") := by
      rw [hfil]; exact hx
    simpa using (List.mem_filter.1 hm).2
  have hone := dedup_result_one_kqed s2m good probe channels a b c hfil hga hgb
    hgc hua
  refine ⟨?_, ?_, ?_⟩
  · have hcore : (dedup_core s2m good false probe channels).2 =
        channels.filterMap (dedup_result_one s2m good false probe channels) := rfl
    rw [hcore, filter_filterMap_comm _ _
      (fun c0 d0 h0 => by rw [dedup_result_one_key _ _ _ _ _ _ _ h0]), hfil]
    rw [List.filterMap_cons, List.filterMap_cons, List.filterMap_cons,
      List.filterMap_nil]
    rw [hone a (hkey a (by simp)), hone b (hkey b (by simp)),
      hone c (hkey c (by simp))]
    rw [if_pos (by simp), if_neg (by simp [hab]), if_neg (by simp [hub]),
      if_neg (by simp [hac]), if_neg (by simp [huc])]
  · intro v
    have hflat : (([a, b, c].map (fun x => x.services)).flatten) =
        a.services ++ b.services ++ c.services := by
      simp [List.append_assoc]
    constructor
    · intro hv
      obtain ⟨s, hs, rfl⟩ := List.mem_map.1 hv
      have hm := (merge_go_mem s _ []).1 hs
      rw [show merge_services [a, b, c] =
        merge_go (([a, b, c].map (fun x => x.services)).flatten) [] from rfl] at hs
      have hm2 := (merge_go_mem s _ []).1 hs
      rw [hflat] at hm2
      rcases List.mem_append.1 hm2.1 with hmm | hmm
      · rcases List.mem_append.1 hmm with hmm2 | hmm2
        · exact Or.inl hmm2
        · exact Or.inr (Or.inl hmm2)
      · exact Or.inr (Or.inr hmm)
    · intro hv
      have hvm : v ∈ a.services ++ b.services ++ c.services := by
        rcases hv with hv | hv | hv
        · exact List.mem_append.2 (Or.inl (List.mem_append.2 (Or.inl hv)))
        · exact List.mem_append.2 (Or.inl (List.mem_append.2 (Or.inr hv)))
        · exact List.mem_append.2 (Or.inr hv)
      obtain ⟨s, rfl, hs2⟩ := hval v hvm
      refine List.mem_map.2 ⟨s, ?_, rfl⟩
      rw [show merge_services [a, b, c] =
        merge_go (([a, b, c].map (fun x => x.services)).flatten) [] from rfl]
      refine (merge_go_mem s _ []).2 ⟨?_, hs2, by simp⟩
      rw [hflat]
      exact hvm
  · refine List.Nodup.map ?_ (merge_go_nodup _ _)
    intro x y hxy2
    injection hxy2

/-- KQED-HD candidate with two good services (note the untrimmed name). -/
def kqed_a : ChanEntry :=
  { uuid := "ua", name := some (.str " KQED-HD ")
    services := [.str "x1", .str "x2"] }

/-- KQED-HD candidate with one good service. -/
def kqed_b : ChanEntry :=
  { uuid := "ub", name := some (.str "KQED-HD")
    services := [.str "y1", .str "y2"] }

/-- KQED-HD candidate with no good service. -/
def kqed_c : ChanEntry :=
  { uuid := "uc", name := some (.str "KQED-HD"), services := [.str "z1"] }

/-- A differently-named channel sharing the grid. -/
def kqed_other : ChanEntry :=
  { uuid := "uo", name := some (.str "PBS"), services := [.str "p1"] }

/-- Service→mux map for the witness grid. -/
def kqed_s2m : List (String × String) :=
  [("x1", "m1"), ("x2", "m1"), ("y1", "m1"), ("y2", "m2")]

/-- C2 witness: the dedup outcome on a concrete four-channel grid. -/
theorem dedup_kqed_witness :
    ((dedup_core kqed_s2m ["m1"] false probe_none
        [kqed_other, kqed_a, kqed_b, kqed_c]).2.filter
        (fun ch => chanKey ch == some "KQED-HD")) =
      [{ kqed_a with services :=
          (merge_services [kqed_a, kqed_b, kqed_c]).map PyVal.str }] ∧
    (∀ v, v ∈ (merge_services [kqed_a, kqed_b, kqed_c]).map PyVal.str ↔
      (v ∈ kqed_a.services ∨ v ∈ kqed_b.services ∨ v ∈ kqed_c.services)) ∧
    ((merge_services [kqed_a, kqed_b, kqed_c]).map PyVal.str).Nodup :=
  dedup_kqed kqed_s2m ["m1"] probe_none [kqed_other, kqed_a, kqed_b, kqed_c]
    kqed_a kqed_b kqed_c (by decide) (by decide) (by decide) (by decide)
    (by decide) (by decide) (by decide) (by decide) (by decide)
    (by
      intro v hv
      simp only [kqed_a, kqed_b, kqed_c, List.mem_append, List.mem_cons,
        List.not_mem_nil, or_false] at hv
      rcases hv with ((rfl | rfl) | (rfl | rfl)) | rfl
      · exact ⟨"x1", rfl, by decide⟩
      · exact ⟨"x2", rfl, by decide⟩
      · exact ⟨"y1", rfl, by decide⟩
      · exact ⟨"y2", rfl, by decide⟩
      · exact ⟨"z1", rfl, by decide⟩)

/-! ## C3: poll timeout aborts the run before any channel operation -/

/-- If the poller never sees a settled snapshot and the elapsed-time
oracle eventually exceeds the timeout within the modelled iterations, the
loop returns failure. -/
theorem poll_loop_false (t : Nat → Nat) (timeout : Nat) (states : MuxStates)
    (hset : states.is_settled = false) :
    ∀ (fuel i : Nat), (∃ k, i ≤ k ∧ k < i + fuel ∧ timeout < t k) →
      poll_loop t timeout states i fuel = some false := by
  intro fuel
  induction fuel with
  | zero =>
    rintro i ⟨k, h1, h2, _⟩
    omega
  | succ n ih =>
    rintro i ⟨k, h1, h2, h3⟩
    unfold poll_loop
    by_cases hi : timeout < t i
    · rw [if_pos hi]
    · rw [if_neg hi, hset]
      simp only [Bool.false_eq_true, if_false]
      refine ih (i + 1) ⟨k, ?_, by omega, h3⟩
      rcases Nat.eq_or_lt_of_le h1 with rfl | hlt
      · exact absurd h3 hi
      · omega

/-- The mux-creation loop touches only the mux grid and its uuid counter. -/
theorem create_mux_step_channels (nu nn : String) :
    ∀ (l : List Int) (acc : List Effect × BState),
      ((l.foldl (create_mux_step nu nn) acc).2).channels = acc.2.channels ∧
      ((l.foldl (create_mux_step nu nn) acc).2).services = acc.2.services ∧
      ((l.foldl (create_mux_step nu nn) acc).2).networks = acc.2.networks ∧
      ((l.foldl (create_mux_step nu nn) acc).2).hw = acc.2.hw ∧
      ((l.foldl (create_mux_step nu nn) acc).2).next_chan = acc.2.next_chan := by
  intro l
  induction l with
  | nil => intro acc; exact ⟨rfl, rfl, rfl, rfl, rfl⟩
  | cons rf rest ih =>
    intro acc
    rw [List.foldl_cons]
    have hstep : (create_mux_step nu nn acc rf).2.channels = acc.2.channels ∧
        (create_mux_step nu nn acc rf).2.services = acc.2.services ∧
        (create_mux_step nu nn acc rf).2.networks = acc.2.networks ∧
        (create_mux_step nu nn acc rf).2.hw = acc.2.hw ∧
        (create_mux_step nu nn acc rf).2.next_chan = acc.2.next_chan := by
      unfold create_mux_step
      cases rf_to_freq_hz rf with
      | none => exact ⟨rfl, rfl, rfl, rfl, rfl⟩
      | some freq => exact ⟨rfl, rfl, rfl, rfl, rfl⟩
    obtain ⟨hc, hs, hn, hh, hx⟩ := ih (create_mux_step nu nn acc rf)
    exact ⟨hc.trans hstep.1, hs.trans hstep.2.1, hn.trans hstep.2.2.1,
      hh.trans hstep.2.2.2.1, hx.trans hstep.2.2.2.2⟩

/-- The pre-poll phases never touch channels, services or the static
tables. -/
theorem scan_pre_frame (cfg : ScanConfig) (nu : String) (st : BState) :
    (scan_pre cfg nu st).2.channels = st.channels ∧
    (scan_pre cfg nu st).2.services = st.services ∧
    (scan_pre cfg nu st).2.networks = st.networks ∧
    (scan_pre cfg nu st).2.hw = st.hw ∧
    (scan_pre cfg nu st).2.next_chan = st.next_chan := by
  unfold scan_pre create_muxes
  by_cases hw : cfg.wipe_existing_muxes
  · simp only [hw, if_pos]
    exact create_mux_step_channels nu cfg.net_name _ _
  · simp only [hw, Bool.false_eq_true, if_false]
    exact create_mux_step_channels nu cfg.net_name _ _

/-- The mux-creation loop emits no channel-touching effects. -/
theorem create_mux_step_effects (nu nn : String) :
    ∀ (l : List Int) (acc : List Effect × BState),
      (∀ e ∈ acc.1, is_channel_op e = false) →
      ∀ e ∈ (l.foldl (create_mux_step nu nn) acc).1, is_channel_op e = false := by
  intro l
  induction l with
  | nil => intro acc h; exact h
  | cons rf rest ih =>
    intro acc h
    rw [List.foldl_cons]
    refine ih _ ?_
    unfold create_mux_step
    cases rf_to_freq_hz rf with
    | none => exact h
    | some freq =>
      intro e he
      rcases List.mem_append.1 he with he | he
      · exact h e he
      · rcases List.mem_cons.1 he with rfl | he
        · rfl
        · cases he

/-- No pre-poll phase emits a channel-touching effect. -/
theorem scan_pre_effects (cfg : ScanConfig) (nu : String) (st : BState) :
    ∀ e ∈ (scan_pre cfg nu st).1, is_channel_op e = false := by
  unfold scan_pre
  intro e he
  rcases List.mem_append.1 he with he | he
  · rcases List.mem_append.1 he with he | he
    · rcases List.mem_append.1 he with he | he
      · obtain ⟨n, _, hn⟩ := List.mem_filterMap.1 he
        split at hn
        · cases hn
        · split at hn
          · cases hn
          · split at hn
            · cases hn
            · split at hn
              · cases hn
              · cases hn; rfl
      · by_cases hwp : cfg.wipe_existing_muxes
        · rw [if_pos hwp] at he
          obtain ⟨u, _, rfl⟩ := List.mem_map.1 he
          rfl
        · rw [if_neg hwp] at he
          cases he
    · unfold create_muxes at he
      exact create_mux_step_effects nu cfg.net_name _ _ (by intro e h; cases h) e he
  · obtain ⟨u, _, rfl⟩ := List.mem_map.1 he
    rfl

/-- C3: when the convergence poll never observes a settled state and the
timeout elapses within the polling window, `scan` returns failure with the
pre-poll state: the channel table is untouched and the trace holds no
channel-create, cleanup, dedup or prune operation (those phases are never
reached). -/
theorem scan_timeout_aborts (cfg : ScanConfig) (t : Nat → Nat) (fuel : Nat)
    (probe : ChanEntry → Bool) (st : BState) (nu : String)
    (hnet : get_network_uuid cfg.net_name st.networks = some nu)
    (hnu : nu ≠ "")
    (hunsettled :
      (count_mux_states nu (scan_pre cfg nu st).2.muxes).is_settled = false)
    (htime : ∃ k, k < fuel ∧ cfg.timeout_secs < t k) :
    scan cfg t fuel probe st =
      some (false, (scan_pre cfg nu st).2,
        (if cfg.dry_run then [] else [Effect.epgSave]) ++ (scan_pre cfg nu st).1) ∧
    (scan_pre cfg nu st).2.channels = st.channels ∧
    (∀ e ∈ (if cfg.dry_run then ([] : List Effect) else [Effect.epgSave]) ++
        (scan_pre cfg nu st).1, is_channel_op e = false) := by
  refine ⟨?_, (scan_pre_frame cfg nu st).1, ?_⟩
  · obtain ⟨k, hk1, hk2⟩ := htime
    simp only [scan, hnet]
    rw [if_neg (by simp [hnu])]
    rw [poll_loop_false t cfg.timeout_secs _ hunsettled fuel 0
      ⟨k, Nat.zero_le k, by omega, hk2⟩]
  · intro e he
    rcases List.mem_append.1 he with he | he
    · by_cases hd : cfg.dry_run
      · rw [if_pos hd] at he
        cases he
      · rw [if_neg hd] at he
        rcases List.mem_cons.1 he with rfl | he
        · rfl
        · cases he
    · exact scan_pre_effects cfg nu st e he

/-- Configuration with an empty RF range for the timeout witness. -/
def cfg_stall : ScanConfig :=
  { rf_start := 3, rf_end := 2, wipe_existing_muxes := false }

/-- Backend whose single mux is stuck actively scanning. -/
def st_stall : BState :=
  { networks := [{ networkname := some (.str "ATSC OTA"), uuid := "net1" }]
    muxes := [{ uuid := "m1", network_uuid := some (.str "net1")
                enabled := some (.bool true), scan_state := some (.int 2)
                scan_result := some (.int 0) }] }

/-- Elapsed-time oracle that is already past the timeout. -/
def t_late : Nat → Nat := fun _ => 1000

/-- C3 witness: a concrete stalled scan. -/
theorem scan_timeout_aborts_witness :
    scan cfg_stall t_late 1 probe_none st_stall =
      some (false, (scan_pre cfg_stall "net1" st_stall).2,
        (if cfg_stall.dry_run then [] else [Effect.epgSave]) ++
          (scan_pre cfg_stall "net1" st_stall).1) ∧
    (scan_pre cfg_stall "net1" st_stall).2.channels = st_stall.channels ∧
    (∀ e ∈ (if cfg_stall.dry_run then ([] : List Effect) else [Effect.epgSave]) ++
        (scan_pre cfg_stall "net1" st_stall).1, is_channel_op e = false) :=
  scan_timeout_aborts cfg_stall t_late 1 probe_none st_stall "net1"
    (by decide) (by decide) (by decide) ⟨0, by decide, by decide⟩

/-! ## C4 (amended): a wipe-free run on a clean backend issues no deletes
and no channel creates -/

/-- Whether this channel's name group in the grid has at most one member
(so the deduplicator leaves it alone). -/
def group_small (chans : List ChanEntry) (ch : ChanEntry) : Bool :=
  match chanKey ch with
  | Option.none => true
  | some k => (chans.filter (fun c => chanKey c == some k)).length ≤ 1

/-- A fold whose step fixes the accumulator on every list member is the
identity. -/
theorem foldl_fix {α β : Type} (step : β → α → β) (l : List α) (a : β)
    (h : ∀ x ∈ l, ∀ acc, step acc x = acc) : l.foldl step a = a := by
  induction l generalizing a with
  | nil => rfl
  | cons x rest ih =>
    rw [List.foldl_cons, h x (by simp)]
    exact ih a (fun y hy acc => h y (by simp [hy]) acc)

/-- Replacing the channel table by itself is the identity. -/
theorem bstate_set_channels_self (s : BState) (c : List ChanEntry)
    (h : s.channels = c) : { s with channels := c } = s := by
  subst h
  rfl

/-- The poll succeeds immediately on a settled snapshot. -/
theorem poll_loop_settled (t : Nat → Nat) (timeout : Nat) (states : MuxStates)
    (hset : states.is_settled = true) (ht0 : ¬timeout < t 0) (fuel : Nat)
    (hfuel : 0 < fuel) : poll_loop t timeout states 0 fuel = some true := by
  cases fuel with
  | zero => omega
  | succ n =>
    unfold poll_loop
    rw [if_neg ht0, hset]
    rfl

/-- Orphan deletion is a no-op when no channel has an empty services list. -/
theorem delete_orphan_noop (channels : List ChanEntry)
    (h : ∀ ch ∈ channels, ch.services.isEmpty = false) :
    delete_orphan_channels false channels = ([], channels) := by
  unfold delete_orphan_channels
  congr 1
  · exact List.filterMap_eq_nil_iff.2 (fun ch hch => by simp [h ch hch])
  · exact List.filter_eq_self.2 (fun ch hch => by simp [h ch hch])

/-- Disabling failed muxes is a no-op when no mux qualifies. -/
theorem disable_failed_noop (nu nn : String) (st : BState)
    (h : ∀ e ∈ st.muxes, should_disable nu nn e = false) :
    disable_failed_muxes nu nn false st = ([], st) := by
  unfold disable_failed_muxes
  rw [if_neg (by simp)]
  congr 1
  · exact List.filterMap_eq_nil_iff.2 (fun e he => by simp [h e he])
  · rw [map_id_of_mem (fun e he => by simp [h e he])]

/-- Service→channel mapping is a no-op when every valid service is already
referenced by a channel. -/
theorem mapping_noop (dry : Bool) (st : BState)
    (h : ∀ svc ∈ st.services,
      svc.uuid = "" ∨ svc.uuid ∈ mapped_services st.channels) :
    ensure_channels_mapped_from_services dry st = ([], st) := by
  unfold ensure_channels_mapped_from_services
  refine foldl_fix _ _ _ (fun svc hsvc acc => ?_)
  unfold map_service_step
  by_cases hu0 : (svc.uuid == "") = true
  · rw [if_pos hu0]
  · rcases h svc hsvc with hu | hm
    · exact absurd (by simp [hu]) hu0
    · rw [if_neg hu0,
        if_pos (by simpa only [List.contains] using List.elem_iff.2 hm)]

/-- Placeholder cleanup is a no-op when no channel is placeholder-named. -/
theorem cleanup_noop (cfg : ScanConfig) (channels : List ChanEntry)
    (h : ∀ ch ∈ channels, is_unnamed_channel cfg ch = false) :
    cleanup_unnamed_channels cfg channels = ([], channels) := by
  unfold cleanup_unnamed_channels
  congr 1
  · exact List.filterMap_eq_nil_iff.2 (fun ch hch => by simp [h ch hch])
  · exact List.filter_eq_self.2 (fun ch hch => by simp [h ch hch])

/-- The Pruner leaves a channel untouched when every link passes. -/
theorem prune_one_noop (svcs : List SvcEntry) (nu nn : String)
    (idx : List (String × MuxIdxRec)) (ch : ChanEntry)
    (hok : ∀ su ∈ ch.services, link_ok svcs nu nn idx su = true) :
    prune_one svcs nu nn idx false ch = (some ch, []) := by
  unfold prune_one
  by_cases h1 : (ch.uuid == "") = true
  · rw [if_pos h1]
  · rw [if_neg h1]
    by_cases h2 : ch.services.isEmpty = true
    · rw [if_pos h2]
    · rw [if_neg h2, if_pos (by simp [List.filter_eq_self.2 hok])]

/-- The prune phase is a no-op on an all-valid grid. -/
theorem prune_noop (svcs : List SvcEntry) (nu nn : String)
    (muxes : List MuxEntry) (channels : List ChanEntry)
    (hok : ∀ ch ∈ channels, ∀ su ∈ ch.services,
      link_ok svcs nu nn (get_mux_index nu nn muxes) su = true) :
    prune_invalid_services_per_channel svcs nu nn muxes false channels =
      ([], channels) := by
  unfold prune_invalid_services_per_channel
  dsimp only
  congr 1
  · refine List.flatten_eq_nil_iff.2 (fun l hl => ?_)
    obtain ⟨ch, hch, rfl⟩ := List.mem_map.1 hl
    rw [prune_one_noop svcs nu nn _ ch (hok ch hch)]
  · exact filterMap_id_of_mem (fun ch hch => by
      rw [prune_one_noop svcs nu nn _ ch (hok ch hch)])

/-- First-seen key collection only yields keys of the input. -/
theorem firstDedupGo_subset :
    ∀ (l seen : List String) (x : String), x ∈ firstDedupGo l seen → x ∈ l := by
  intro l
  induction l with
  | nil => intro seen x hx; cases hx
  | cons y rest ih =>
    intro seen x hx
    unfold firstDedupGo at hx
    split at hx
    · exact List.mem_cons.2 (Or.inr (ih seen x hx))
    · rcases List.mem_cons.1 hx with rfl | hx
      · exact List.mem_cons.2 (Or.inl rfl)
      · exact List.mem_cons.2 (Or.inr (ih _ x hx))

/-- A group with fewer than two members causes no dedup writes. -/
theorem dedup_process_group_small (s2m : List (String × String))
    (good : List String) (dry : Bool) (probe : ChanEntry → Bool)
    (chans : List ChanEntry) (h : chans.length < 2) :
    dedup_process_group s2m good dry probe chans = [] := by
  unfold dedup_process_group
  rw [if_pos h]

/-- Dedup is a no-op when every name group has at most one member. -/
theorem dedup_noop (s2m : List (String × String)) (good : List String)
    (dry : Bool) (probe : ChanEntry → Bool) (channels : List ChanEntry)
    (h : ∀ ch ∈ channels, group_small channels ch = true) :
    dedup_core s2m good dry probe channels = ([], channels) := by
  unfold dedup_core
  dsimp only
  congr 1
  · refine List.flatten_eq_nil_iff.2 (fun l hl => ?_)
    obtain ⟨k, hk, rfl⟩ := List.mem_map.1 hl
    obtain ⟨ch, hch, hkey⟩ := List.mem_filterMap.1 (firstDedupGo_subset _ _ _ hk)
    have hg := h ch hch
    unfold group_small at hg
    rw [hkey] at hg
    exact dedup_process_group_small s2m good dry probe _ (by
      have : (channels.filter (fun c => chanKey c == some k)).length ≤ 1 := by
        simpa using hg
      omega)
  · refine filterMap_id_of_mem (fun ch hch => ?_)
    cases hkey : chanKey ch with
    | none => simp only [dedup_result_one, hkey]
    | some k =>
      have hg := h ch hch
      unfold group_small at hg
      rw [hkey] at hg
      simp only [dedup_result_one, hkey]
      rw [if_pos (by
        have : (channels.filter (fun c => chanKey c == some k)).length ≤ 1 := by
          simpa using hg
        omega)]

/-- The dedup phase wrapper is likewise a no-op. -/
theorem dedup_phase_noop (svcs : List SvcEntry) (nu nn : String)
    (muxes : List MuxEntry) (probe : ChanEntry → Bool)
    (channels : List ChanEntry)
    (h : ∀ ch ∈ channels, group_small channels ch = true) :
    deduplicate_channels_by_name svcs nu nn muxes false probe channels =
      ([], channels) := by
  unfold deduplicate_channels_by_name
  exact dedup_noop _ _ false probe channels h

/-- All post-poll phases compose to a no-op on a clean backend state. -/
theorem scan_post_noop (cfg : ScanConfig) (nu : String)
    (probe : ChanEntry → Bool) (post : BState)
    (hdry : cfg.dry_run = false)
    (g1 : ∀ ch ∈ post.channels, ch.services.isEmpty = false)
    (g2 : ∀ e ∈ post.muxes, should_disable nu cfg.net_name e = false)
    (g3 : ∀ svc ∈ post.services,
      svc.uuid = "" ∨ svc.uuid ∈ mapped_services post.channels)
    (g4 : ∀ ch ∈ post.channels, is_unnamed_channel cfg ch = false)
    (g5 : ∀ ch ∈ post.channels, group_small post.channels ch = true)
    (g6 : ∀ ch ∈ post.channels, ∀ su ∈ ch.services,
      link_ok post.services nu cfg.net_name
        (get_mux_index nu cfg.net_name post.muxes) su = true) :
    scan_post cfg nu probe post = ([], post) := by
  unfold scan_post
  rw [hdry]
  dsimp only
  rw [delete_orphan_noop post.channels g1]
  dsimp only
  rw [bstate_set_channels_self post post.channels rfl]
  rw [disable_failed_noop nu cfg.net_name post g2]
  dsimp only
  rw [mapping_noop false post g3]
  dsimp only
  by_cases hdu : cfg.delete_unnamed_channels = true
  · rw [if_pos hdu, cleanup_noop cfg post.channels g4]
    dsimp only
    rw [dedup_phase_noop post.services nu cfg.net_name post.muxes probe
      post.channels g5]
    dsimp only
    rw [prune_noop post.services nu cfg.net_name post.muxes post.channels g6]
    simp
  · rw [if_neg hdu]
    dsimp only
    rw [dedup_phase_noop post.services nu cfg.net_name post.muxes probe
      post.channels g5]
    dsimp only
    rw [prune_noop post.services nu cfg.net_name post.muxes post.channels g6]
    simp

/-- The mux-creation loop emits neither deletes nor channel creates. -/
theorem create_mux_step_effects_rerun (nu nn : String) :
    ∀ (l : List Int) (acc : List Effect × BState),
      (∀ e ∈ acc.1, is_delete_op e = false ∧ is_chan_create e = false) →
      ∀ e ∈ (l.foldl (create_mux_step nu nn) acc).1,
        is_delete_op e = false ∧ is_chan_create e = false := by
  intro l
  induction l with
  | nil => intro acc h; exact h
  | cons rf rest ih =>
    intro acc h
    rw [List.foldl_cons]
    refine ih _ ?_
    unfold create_mux_step
    cases rf_to_freq_hz rf with
    | none => exact h
    | some freq =>
      intro e he
      rcases List.mem_append.1 he with he | he
      · exact h e he
      · rcases List.mem_cons.1 he with rfl | he
        · exact ⟨rfl, rfl⟩
        · cases he

/-- Without the wipe, no pre-poll phase emits a delete or channel create. -/
theorem scan_pre_effects_rerun (cfg : ScanConfig) (nu : String) (st : BState)
    (hwipe : cfg.wipe_existing_muxes = false) :
    ∀ e ∈ (scan_pre cfg nu st).1,
      is_delete_op e = false ∧ is_chan_create e = false := by
  unfold scan_pre
  intro e he
  rcases List.mem_append.1 he with he | he
  · rcases List.mem_append.1 he with he | he
    · rcases List.mem_append.1 he with he | he
      · obtain ⟨n, _, hn⟩ := List.mem_filterMap.1 he
        split at hn
        · cases hn
        · split at hn
          · cases hn
          · split at hn
            · cases hn
            · split at hn
              · cases hn
              · cases hn
                exact ⟨rfl, rfl⟩
      · rw [hwipe] at he
        simp at he
    · unfold create_muxes at he
      exact create_mux_step_effects_rerun nu cfg.net_name _ _
        (by intro e h; cases h) e he
  · obtain ⟨u, _, rfl⟩ := List.mem_map.1 he
    exact ⟨rfl, rfl⟩

/-- C4 (amended): a wipe-free, non-dry run against a clean backend — all
muxes settled and healthy-or-ignorable, every service mapped, no orphans,
no placeholder names, no duplicate name groups, all links valid —
completes successfully, leaves the channel table untouched, and issues no
delete operation of any kind and no channel-create; mux creates and scans
are still issued (visible in the returned trace). -/
theorem scan_rerun_clean_state (cfg : ScanConfig) (t : Nat → Nat) (fuel : Nat)
    (probe : ChanEntry → Bool) (st : BState) (nu : String)
    (hwipe : cfg.wipe_existing_muxes = false)
    (hdry : cfg.dry_run = false)
    (hnet : get_network_uuid cfg.net_name st.networks = some nu)
    (hnu : nu ≠ "")
    (hsettle :
      (count_mux_states nu (scan_pre cfg nu st).2.muxes).is_settled = true)
    (ht0 : ¬cfg.timeout_secs < t 0)
    (hfuel : 0 < fuel)
    (h1 : ∀ ch ∈ st.channels, ch.services.isEmpty = false)
    (h2 : ∀ e ∈ (scan_pre cfg nu st).2.muxes,
      should_disable nu cfg.net_name e = false)
    (h3 : ∀ svc ∈ st.services,
      svc.uuid = "" ∨ svc.uuid ∈ mapped_services st.channels)
    (h4 : ∀ ch ∈ st.channels, is_unnamed_channel cfg ch = false)
    (h5 : ∀ ch ∈ st.channels, group_small st.channels ch = true)
    (h6 : ∀ ch ∈ st.channels, ∀ su ∈ ch.services,
      link_ok st.services nu cfg.net_name
        (get_mux_index nu cfg.net_name (scan_pre cfg nu st).2.muxes) su = true) :
    scan cfg t fuel probe st =
      some (true, (scan_pre cfg nu st).2,
        [Effect.epgSave] ++ (scan_pre cfg nu st).1) ∧
    (scan_pre cfg nu st).2.channels = st.channels ∧
    (∀ e ∈ [Effect.epgSave] ++ (scan_pre cfg nu st).1,
      is_delete_op e = false ∧ is_chan_create e = false) := by
  have hfr := scan_pre_frame cfg nu st
  have hpost : scan_post cfg nu probe (scan_pre cfg nu st).2 =
      ([], (scan_pre cfg nu st).2) := by
    refine scan_post_noop cfg nu probe _ hdry ?_ h2 ?_ ?_ ?_ ?_
    · rw [hfr.1]; exact h1
    · rw [hfr.2.1, hfr.1]; exact h3
    · rw [hfr.1]; exact h4
    · rw [hfr.1]; exact h5
    · rw [hfr.2.1, hfr.1]; exact h6
  refine ⟨?_, hfr.1, ?_⟩
  · simp only [scan, hnet]
    rw [if_neg (by simp [hnu])]
    rw [poll_loop_settled t cfg.timeout_secs _ hsettle ht0 fuel hfuel]
    dsimp only
    rw [hpost, hdry]
    simp
  · intro e he
    rcases List.mem_cons.1 he with rfl | he
    · exact ⟨rfl, rfl⟩
    · exact scan_pre_effects_rerun cfg nu st hwipe e he

/-- Wipe-free configuration with an empty RF range. -/
def cfg_clean : ScanConfig :=
  { rf_start := 3, rf_end := 2, wipe_existing_muxes := false }

/-- A clean backend: one settled healthy mux, one mapped service, one
channel holding its link. -/
def st_clean : BState :=
  { networks := [{ networkname := some (.str "ATSC OTA"), uuid := "net1" }]
    muxes := [{ uuid := "m1", network_uuid := some (.str "net1")
                enabled := some (.bool true), scan_state := some (.int 0)
                scan_result := some (.int 1) }]
    services := [{ uuid := "s1", pMultiplex := some (.str "m1") }]
    channels := [{ uuid := "c1", name := some (.str "KQED")
                   services := [.str "s1"] }] }

/-- C4 witness: the wipe-free rerun on the concrete clean backend. -/
theorem scan_rerun_clean_state_witness :
    scan cfg_clean t_zero 1 probe_none st_clean =
      some (true, (scan_pre cfg_clean "net1" st_clean).2,
        [Effect.epgSave] ++ (scan_pre cfg_clean "net1" st_clean).1) ∧
    (scan_pre cfg_clean "net1" st_clean).2.channels = st_clean.channels ∧
    (∀ e ∈ [Effect.epgSave] ++ (scan_pre cfg_clean "net1" st_clean).1,
      is_delete_op e = false ∧ is_chan_create e = false) :=
  scan_rerun_clean_state cfg_clean t_zero 1 probe_none st_clean "net1"
    rfl rfl (by decide) (by decide) (by decide) (by decide) (by decide)
    (by decide) (by decide) (by decide) (by decide) (by decide) (by decide)

/-! ## C8: a successful scan leaves no channel without services -/

/-- A well-formed channel-grid services entry: a nonempty string uuid. -/
def valid_service_entry : PyVal → Bool
  | .str s => s != ""
  | _ => false

/-- A well-formed channel row: valid uuid and well-formed service entries. -/
def chan_wf (ch : ChanEntry) : Bool :=
  ch.uuid != "" && ch.services.all valid_service_entry

/-- Well-formed with a nonempty services list. -/
def chan_wfne (ch : ChanEntry) : Bool :=
  chan_wf ch && !ch.services.isEmpty

/-- A well-formed nonempty channel has a nonempty services list. -/
theorem chan_wfne_nonempty {ch : ChanEntry} (h : chan_wfne ch = true) :
    ch.services.isEmpty = false := by
  unfold chan_wfne at h
  rw [Bool.and_eq_true] at h
  simpa using h.2

/-- Orphan deletion turns a well-formed grid into a well-formed grid of
nonempty channels: the empty ones are exactly the deleted ones. -/
theorem orphan_out_wfne (channels : List ChanEntry)
    (h : ∀ ch ∈ channels, chan_wf ch = true) :
    ∀ ch ∈ (delete_orphan_channels false channels).2, chan_wfne ch = true := by
  intro ch hch
  unfold delete_orphan_channels at hch
  obtain ⟨hmem, hpred⟩ := List.mem_filter.1 hch
  have hwf := h ch hmem
  unfold chan_wfne
  rw [Bool.and_eq_true]
  refine ⟨hwf, ?_⟩
  unfold chan_wf at hwf
  rw [Bool.and_eq_true] at hwf
  by_cases hemp : ch.services.isEmpty = true
  · exfalso
    revert hpred
    simp [hemp, hwf.1]
  · simp [hemp]

/-- Disabling failed muxes never touches the channel grid. -/
theorem disable_failed_channels_eq (nu nn : String) (st : BState) :
    (disable_failed_muxes nu nn false st).2.channels = st.channels := by
  unfold disable_failed_muxes
  rw [if_neg (by simp)]

/-- Generated channel uuids are never blank. -/
theorem chan_gen_uuid_ne (n : Nat) : ("chan-" ++ toString n) ≠ "" := by
  intro h
  have h1 := congrArg String.length h
  rw [String.length_append] at h1
  have h2 : String.length "chan-" = 5 := rfl
  have h3 : String.length "" = 0 := rfl
  rw [h2, h3] at h1
  omega

/-- The service-to-channel mapping phase preserves well-formed
nonemptiness: created channels carry a fresh uuid and one valid service. -/
theorem mapping_out_wfne (st : BState)
    (h : ∀ ch ∈ st.channels, chan_wfne ch = true) :
    ∀ ch ∈ (ensure_channels_mapped_from_services false st).2.channels,
      chan_wfne ch = true := by
  unfold ensure_channels_mapped_from_services
  suffices haux : ∀ (l : List SvcEntry) (acc : List Effect × BState),
      (∀ ch ∈ acc.2.channels, chan_wfne ch = true) →
      ∀ ch ∈ ((l.foldl (map_service_step st.services
          (mapped_services st.channels) false) acc).2).channels,
        chan_wfne ch = true by
    exact haux st.services ([], st) h
  intro l
  induction l with
  | nil => intro acc hacc; exact hacc
  | cons svc rest ih =>
    intro acc hacc
    rw [List.foldl_cons]
    refine ih _ ?_
    unfold map_service_step
    by_cases h1 : (svc.uuid == "") = true
    · rw [if_pos h1]; exact hacc
    · rw [if_neg h1]
      by_cases h2 : ((mapped_services st.channels).contains svc.uuid) = true
      · rw [if_pos h2]; exact hacc
      · rw [if_neg h2]
        cases get_service_best_name st.services svc with
        | none => exact hacc
        | some name =>
          simp only [Bool.false_eq_true, if_false]
          intro ch hch
          rcases List.mem_append.1 hch with hch | hch
          · exact hacc ch hch
          · rcases List.mem_cons.1 hch with rfl | hch
            · unfold chan_wfne chan_wf created_channel
              simp only [Bool.and_eq_true]
              refine ⟨⟨by simpa using chan_gen_uuid_ne acc.2.next_chan, ?_⟩, by simp⟩
              simp only [List.all_cons, List.all_nil, Bool.and_true]
              unfold valid_service_entry
              simpa using (by simpa using h1 : svc.uuid ≠ "")
            · cases hch

/-- Placeholder cleanup only filters, so any per-channel property of the
input grid holds of the output grid. -/
theorem cleanup_out_keep (cfg : ScanConfig) (channels : List ChanEntry)
    (P : ChanEntry → Prop) (h : ∀ ch ∈ channels, P ch) :
    ∀ ch ∈ (cleanup_unnamed_channels cfg channels).2, P ch := by
  intro ch hch
  unfold cleanup_unnamed_channels at hch
  exact h ch (List.mem_filter.1 hch).1

/-- Stable insertion permutes the element into the list. -/
theorem insortEnr_perm (x : Enr) (l : List Enr) :
    (insortEnr x l).Perm (x :: l) := by
  induction l with
  | nil => exact List.Perm.refl _
  | cons y ys ih =>
    unfold insortEnr
    by_cases hk : keyLE (enrKey x) (enrKey y) = true
    · rw [if_pos hk]
    · rw [if_neg hk]
      exact (List.Perm.cons y ih).trans (List.Perm.swap x y ys)

/-- The dedup sort is a permutation of its input. -/
theorem sortEnr_perm (l : List Enr) : (sortEnr l).Perm l := by
  induction l with
  | nil => exact List.Perm.refl _
  | cons a rest ih =>
    unfold sortEnr at *
    rw [List.foldr_cons]
    exact (insortEnr_perm a _).trans (List.Perm.cons a ih)

/-- Every merged service uuid is nonempty. -/
theorem dedup_merged_valid (s2m : List (String × String)) (good : List String)
    (grp : List ChanEntry) :
    ∀ s ∈ dedup_merged s2m good grp, s ≠ "" := by
  intro s hs
  unfold dedup_merged merge_services at hs
  exact ((merge_go_mem s _ []).1 hs).2.1

/-- If some group member holds a valid string service entry, the merged
service list is nonempty. -/
theorem dedup_merged_nonempty (s2m : List (String × String)) (good : List String)
    (grp : List ChanEntry) (g : ChanEntry) (hg : g ∈ grp) (s0 : String)
    (hs0 : PyVal.str s0 ∈ g.services) (hs0ne : s0 ≠ "") :
    dedup_merged s2m good grp ≠ [] := by
  unfold dedup_merged merge_services
  have hmem : g ∈ (sortEnr (grp.map (enrich s2m good))).map (·.ch) := by
    refine List.mem_map.2 ⟨enrich s2m good g, ?_, rfl⟩
    exact ((sortEnr_perm _).mem_iff).2 (List.mem_map_of_mem _ hg)
  have hflat : PyVal.str s0 ∈
      (((sortEnr (grp.map (enrich s2m good))).map (·.ch)).map (·.services)).flatten := by
    exact List.mem_flatten.2 ⟨g.services, List.mem_map_of_mem _ hmem, hs0⟩
  have : s0 ∈ merge_go
      ((((sortEnr (grp.map (enrich s2m good))).map (·.ch)).map (·.services)).flatten)
      [] := (merge_go_mem s0 _ []).2 ⟨hflat, hs0ne, by simp⟩
  exact List.ne_nil_of_mem this

/-- The dedup core preserves well-formed nonemptiness: untouched channels
keep their services, the canonical of a merged group receives the merged
list, which is nonempty and valid. -/
theorem dedup_core_out_wfne (s2m : List (String × String)) (good : List String)
    (dry : Bool) (probe : ChanEntry → Bool) (channels : List ChanEntry)
    (h : ∀ c ∈ channels, chan_wfne c = true) :
    ∀ c2 ∈ (dedup_core s2m good dry probe channels).2, chan_wfne c2 = true := by
  intro c2 hc2
  unfold dedup_core at hc2
  dsimp only at hc2
  obtain ⟨ch, hch, hres⟩ := List.mem_filterMap.1 hc2
  unfold dedup_result_one at hres
  split at hres
  · cases hres; exact h _ hch
  · rename_i k hk
    split at hres
    · cases hres; exact h _ hch
    · rename_i hlen
      split at hres
      · cases hres; exact h _ hch
      · split at hres
        · cases hres; exact h _ hch
        · split at hres
          · cases hres
            -- canonical branch: services replaced by the merged list
            have hgrp : 2 ≤ (channels.filter (fun c => chanKey c == some k)).length := by
              omega
            have hne : channels.filter (fun c => chanKey c == some k) ≠ [] := by
              intro h0
              rw [h0] at hgrp
              simp at hgrp
            obtain ⟨g, rest, hg⟩ := List.exists_cons_of_ne_nil hne
            have hgmem : g ∈ channels.filter (fun c => chanKey c == some k) := by
              rw [hg]; exact List.mem_cons_self g rest
            have hgch : g ∈ channels := (List.mem_filter.1 hgmem).1
            have hgwf := h g hgch
            unfold chan_wfne chan_wf at hgwf
            rw [Bool.and_eq_true, Bool.and_eq_true] at hgwf
            have hgne : g.services.isEmpty = false := by
              have := hgwf.2
              simpa using this
            have hsvcne : g.services ≠ [] := by
              intro h0; rw [h0] at hgne; simp at hgne
            obtain ⟨v, vs, hv⟩ := List.exists_cons_of_ne_nil hsvcne
            have hvmem : v ∈ g.services := by rw [hv]; exact List.mem_cons_self v vs
            have hvval : valid_service_entry v = true := by
              have hall := hgwf.1.2
              rw [List.all_eq_true] at hall
              exact hall v hvmem
            obtain ⟨s0, rfl⟩ : ∃ s, v = PyVal.str s := by
              cases v with
              | str s => exact ⟨s, rfl⟩
              | none => simp [valid_service_entry] at hvval
              | bool b => simp [valid_service_entry] at hvval
              | int n => simp [valid_service_entry] at hvval
            have hs0ne : s0 ≠ "" := by
              unfold valid_service_entry at hvval
              simpa using hvval
            have hchwf := h _ hch
            unfold chan_wfne chan_wf at hchwf
            rw [Bool.and_eq_true, Bool.and_eq_true] at hchwf
            unfold chan_wfne chan_wf
            rw [Bool.and_eq_true, Bool.and_eq_true]
            refine ⟨⟨hchwf.1.1, ?_⟩, ?_⟩
            · rw [List.all_eq_true]
              intro v hvm
              obtain ⟨s, hsmem, rfl⟩ := List.mem_map.1 hvm
              have := dedup_merged_valid s2m good
                (channels.filter (fun c => chanKey c == some k)) s hsmem
              unfold valid_service_entry
              simpa using this
            · have hmne := dedup_merged_nonempty s2m good
                (channels.filter (fun c => chanKey c == some k)) g hgmem s0 hvmem hs0ne
              obtain ⟨m, ms, hm⟩ := List.exists_cons_of_ne_nil hmne
              rw [hm]
              simp
          · split at hres
            · cases hres; exact h _ hch
            · cases hres

/-- `deduplicate_channels_by_name` preserves well-formed nonemptiness. -/
theorem dedup_out_wfne (svcs : List SvcEntry) (nu nn : String)
    (muxes : List MuxEntry) (dry : Bool) (probe : ChanEntry → Bool)
    (channels : List ChanEntry)
    (h : ∀ c ∈ channels, chan_wfne c = true) :
    ∀ c2 ∈ (deduplicate_channels_by_name svcs nu nn muxes dry probe channels).2,
      chan_wfne c2 = true := by
  unfold deduplicate_channels_by_name
  exact dedup_core_out_wfne _ _ dry probe channels h

/-- The pruner never leaves an empty services list: a channel is kept
unchanged, kept with a nonempty filtered list, or deleted. -/
theorem prune_out_nonempty (svcs : List SvcEntry) (nu nn : String)
    (muxes : List MuxEntry) (dry : Bool) (channels : List ChanEntry)
    (h : ∀ c ∈ channels, c.services.isEmpty = false) :
    ∀ c2 ∈ (prune_invalid_services_per_channel svcs nu nn muxes dry channels).2,
      c2.services.isEmpty = false := by
  intro c2 hc2
  unfold prune_invalid_services_per_channel at hc2
  dsimp only at hc2
  obtain ⟨ch, hch, hres⟩ := List.mem_filterMap.1 hc2
  unfold prune_one at hres
  split at hres
  · cases hres; exact h _ hch
  · split at hres
    · cases hres; exact h _ hch
    · split at hres
      · cases hres; exact h _ hch
      · split at hres
        · cases hres; exact h _ hch
        · split at hres
          · cases hres
          · rename_i hkept
            cases hres
            dsimp only
            simpa using hkept

/-- The optional cleanup step preserves well-formed nonemptiness. -/
theorem cln_out_wfne (cfg : ScanConfig) (channels : List ChanEntry)
    (h : ∀ c ∈ channels, chan_wfne c = true) :
    ∀ c ∈ (if cfg.delete_unnamed_channels then
        cleanup_unnamed_channels cfg channels else ([], channels)).2,
      chan_wfne c = true := by
  by_cases hdel : cfg.delete_unnamed_channels = true
  · rw [if_pos hdel]
    exact cleanup_out_keep cfg channels _ h
  · rw [if_neg hdel]
    exact h

/-- The post-poll pipeline on a well-formed grid leaves no channel with an
empty services list. -/
theorem scan_post_nonempty (cfg : ScanConfig) (nu : String)
    (probe : ChanEntry → Bool) (st : BState)
    (hdry : cfg.dry_run = false)
    (hwf : ∀ ch ∈ st.channels, chan_wf ch = true) :
    ∀ ch ∈ (scan_post cfg nu probe st).2.channels,
      ch.services.isEmpty = false := by
  unfold scan_post
  rw [hdry]
  dsimp only
  intro ch hch
  refine prune_out_nonempty _ nu cfg.net_name _ false _
    (fun c hc => chan_wfne_nonempty
      (dedup_out_wfne _ nu cfg.net_name _ false probe _
        (cln_out_wfne cfg _
          (mapping_out_wfne _
            (by
              rw [disable_failed_channels_eq]
              exact orphan_out_wfne st.channels hwf)))
        c hc))
    ch hch

/-- C8: when `scan` completes successfully (returns True) in a non-dry
run over a channel grid whose rows are well formed (valid uuid, service
entries that are nonempty string uuids), every channel left in the final
grid has a non-empty services list: orphan deletion removes the empty
ones, mapping creates only single-service channels, cleanup and dedup
only filter or merge, and the pruner deletes rather than empties. -/
theorem scan_no_empty_channels (cfg : ScanConfig) (t : Nat → Nat) (fuel : Nat)
    (probe : ChanEntry → Bool) (st sF : BState) (effs : List Effect)
    (hdry : cfg.dry_run = false)
    (hwf : ∀ ch ∈ st.channels, chan_wf ch = true)
    (hrun : scan cfg t fuel probe st = some (true, sF, effs)) :
    ∀ ch ∈ sF.channels, ch.services.isEmpty = false := by
  unfold scan at hrun
  dsimp only at hrun
  cases hnet : get_network_uuid cfg.net_name st.networks with
  | none =>
    rw [hnet] at hrun
    simp at hrun
  | some nu =>
    rw [hnet] at hrun
    dsimp only at hrun
    by_cases hnu : (nu == "") = true
    · rw [if_pos hnu] at hrun
      simp at hrun
    · rw [if_neg hnu] at hrun
      cases hpoll : poll_loop t cfg.timeout_secs
          (count_mux_states nu (scan_pre cfg nu st).2.muxes) 0 fuel with
      | none =>
        rw [hpoll] at hrun
        cases hrun
      | some b =>
        rw [hpoll] at hrun
        cases b with
        | false => simp at hrun
        | true =>
          dsimp only at hrun
          rw [Option.some.injEq, Prod.mk.injEq] at hrun
          obtain ⟨-, hrun2⟩ := hrun
          rw [Prod.mk.injEq] at hrun2
          obtain ⟨hsF, -⟩ := hrun2
          rw [← hsF]
          refine scan_post_nonempty cfg nu probe _ hdry ?_
          rw [(scan_pre_frame cfg nu st).1]
          exact hwf

/-- Concrete configuration for the well-formedness run: empty RF range,
no wipe, non-dry. -/
def c8_cfg : ScanConfig :=
  { rf_start := 3, rf_end := 2, wipe_existing_muxes := false }

/-- Concrete backend with two same-named channels, each holding one valid
service on the settled healthy mux. -/
def c8_st : BState :=
  { networks := [{ networkname := some (.str "ATSC OTA"), uuid := "net1" }]
    muxes := [{ uuid := "m1", network_uuid := some (.str "net1")
                enabled := some (.bool true), scan_state := some (.int 0)
                scan_result := some (.int 1) }]
    services := [{ uuid := "s1", pMultiplex := some (.str "m1") },
                 { uuid := "s2", pMultiplex := some (.str "m1") }]
    channels := [{ uuid := "c1", name := some (.str "KQED")
                   services := [.str "s1"] },
                 { uuid := "c2", name := some (.str "KQED")
                   services := [.str "s2"] }] }

/-- The concrete scan run of the well-formedness witness. -/
def c8_run : Option (Bool × BState × List Effect) :=
  scan c8_cfg t_zero 1 probe_none c8_st

/-- The final backend state of the concrete run. -/
def c8_sF : BState := (c8_run.getD (false, {}, [])).2.1

/-- The mutation trace of the concrete run. -/
def c8_effs : List Effect := (c8_run.getD (false, {}, [])).2.2

/-- C8 witness: on the concrete two-channel backend the scan succeeds and
every surviving channel (the merged KQED canonical) has services. -/
theorem scan_no_empty_channels_witness :
    c8_sF.channels.all (fun ch => !ch.services.isEmpty) = true := by
  rw [List.all_eq_true]
  intro ch hch
  have h := scan_no_empty_channels c8_cfg t_zero 1 probe_none c8_st c8_sF c8_effs
    rfl (by decide) rfl ch hch
  simp [h]
